import Mathlib

/-!
Shallow embedding of the Data-Alchemist validation engine
(`runValidations` and its twelve checks) together with the record types it
consumes.  Numbers are modelled as `Int` (the engine only ever adds and
compares integer-valued fields), list-valued fields as Lean lists, and the
JavaScript `Map`/`Set` objects as association lists that mirror insertion
order.  Fields of the source interfaces that no check ever reads
(`GroupTag`, `WorkerGroup`, `QualificationLevel`, `Category`, …) are omitted
from the record types.  `AttributesJSON` may arrive either as an already
parsed object (modelled `none`) or as a raw string (`some s`); whether
`JSON.parse` accepts a given string is abstracted as an oracle
`parseOk : String → Bool` passed to the engine.
-/

/-- Variant payload of a business rule: the engine reads only `tasks`
(co-run rules), and `taskId`/`allowedPhases` (phase-window rules); a field a
rule does not carry is `none` (JavaScript `undefined`). -/
structure RuleParameters where
  tasks : Option (List String)
  taskId : Option String
  allowedPhases : Option (List Int)
deriving DecidableEq, Repr

/-- A business rule as the engine receives it. -/
structure BusinessRule where
  id : String
  type : String
  name : String
  description : String
  parameters : RuleParameters
  active : Bool
deriving DecidableEq, Repr

/-- A client record (engine-read fields only). -/
structure ClientData where
  ClientID : String
  ClientName : String
  PriorityLevel : Int
  RequestedTaskIDs : List String
  AttributesJSON : Option String
deriving DecidableEq, Repr

/-- A worker record (engine-read fields only). -/
structure WorkerData where
  WorkerID : String
  WorkerName : String
  Skills : List String
  AvailableSlots : List Int
  MaxLoadPerPhase : Int
deriving DecidableEq, Repr

/-- A task record (engine-read fields only). -/
structure TaskData where
  TaskID : String
  TaskName : String
  Duration : Int
  RequiredSkills : List String
  PreferredPhases : List Int
  MaxConcurrent : Int
deriving DecidableEq, Repr

/-- One validation finding, as pushed by the engine (the optional
`severity`/`category` fields of the source interface are never set by any
check and are omitted). -/
structure ValidationError where
  id : String
  type : String
  entity : String
  entityId : String
  field : Option String
  message : String
  suggestion : Option String
deriving DecidableEq, Repr

/-! ## JavaScript primitives -/

/-- `s || d` for strings: the empty string is the only falsy string. -/
def jsOr (s d : String) : String := if s = "" then d else s

/-- `Map.set`: overwrite in place when the key is present (keeping its
insertion position), append otherwise. -/
def jsMapSet {κ α : Type} [DecidableEq κ] : List (κ × α) → κ → α → List (κ × α)
  | [], k, v => [(k, v)]
  | (k', v') :: m, k, v =>
      if k' = k then (k, v) :: m else (k', v') :: jsMapSet m k v

/-- `Map.get`: the value stored at the first occurrence of the key. -/
def jsMapGet {κ α : Type} [DecidableEq κ] (m : List (κ × α)) (k : κ) : Option α :=
  (m.find? (fun kv => kv.1 = k)).map (fun kv => kv.2)

/-- The keys of an association list, in insertion order. -/
def mapKeys {κ α : Type} (m : List (κ × α)) : List κ := m.map (fun kv => kv.1)

/-- Iterating `new Set(l)`: the elements of `l` with later duplicates
dropped (first-insertion order), via the set of elements already seen. -/
def jsSetDedupAux {α : Type} [DecidableEq α] (seen : List α) : List α → List α
  | [] => []
  | x :: xs => if x ∈ seen then jsSetDedupAux seen xs else x :: jsSetDedupAux (x :: seen) xs

/-- `[...new Set(l)]`. -/
def jsSetDedup {α : Type} [DecidableEq α] (l : List α) : List α := jsSetDedupAux [] l

/-- `l.filter((a, index) => l.indexOf(a) !== index)`: the elements that are
not the first occurrence of their value. -/
def jsNonFirstOccurrences {α : Type} [DecidableEq α] (l : List α) : List α :=
  (l.enum.filter (fun p => decide (l.indexOf p.2 ≠ p.1))).map (fun p => p.2)

/-- `arrays.reduce((common, phases) => common.filter(p => phases.includes(p)))`:
left fold of pairwise list intersection, seeded with the first array (the
engine only calls it on arrays of length at least two). -/
def jsIntersectAll : List (List Int) → List Int
  | [] => []
  | a :: rest => rest.foldl (fun common phases => common.filter (fun p => p ∈ phases)) a

/-! ## Check 1: missing required fields -/

/-- The finding pushed for a missing client field. -/
def missingClientFinding (c : ClientData) (f : String) : ValidationError :=
  { id := "client-" ++ jsOr c.ClientID "unknown" ++ "-missing-" ++ f
    type := "error", entity := "clients", entityId := jsOr c.ClientID "Unknown"
    field := some f
    message := "Required field \"" ++ f ++ "\" is missing"
    suggestion := some ("Add a value for " ++ f) }

/-- The finding pushed for a missing/empty worker field. -/
def missingWorkerFinding (w : WorkerData) (f : String) : ValidationError :=
  { id := "worker-" ++ jsOr w.WorkerID "unknown" ++ "-missing-" ++ f
    type := "error", entity := "workers", entityId := jsOr w.WorkerID "Unknown"
    field := some f
    message := "Required field \"" ++ f ++ "\" is missing or empty"
    suggestion := some ("Add a value for " ++ f) }

/-- The finding pushed for a missing/empty task field. -/
def missingTaskFinding (t : TaskData) (f : String) : ValidationError :=
  { id := "task-" ++ jsOr t.TaskID "unknown" ++ "-missing-" ++ f
    type := "error", entity := "tasks", entityId := jsOr t.TaskID "Unknown"
    field := some f
    message := "Required field \"" ++ f ++ "\" is missing or empty"
    suggestion := some ("Add a value for " ++ f) }

/-- The required-client-fields loop: `!client[field]` is true for an empty
string and for the number 0. -/
def clientRequired (c : ClientData) : List ValidationError :=
  (if c.ClientID = "" then [missingClientFinding c "ClientID"] else []) ++
  (if c.ClientName = "" then [missingClientFinding c "ClientName"] else []) ++
  (if c.PriorityLevel = 0 then [missingClientFinding c "PriorityLevel"] else [])

/-- The required-worker-fields loop: a list field is reported when falsy or
an empty array. -/
def workerRequired (w : WorkerData) : List ValidationError :=
  (if w.WorkerID = "" then [missingWorkerFinding w "WorkerID"] else []) ++
  (if w.WorkerName = "" then [missingWorkerFinding w "WorkerName"] else []) ++
  (if w.Skills = [] then [missingWorkerFinding w "Skills"] else []) ++
  (if w.AvailableSlots = [] then [missingWorkerFinding w "AvailableSlots"] else []) ++
  (if w.MaxLoadPerPhase = 0 then [missingWorkerFinding w "MaxLoadPerPhase"] else [])

/-- The required-task-fields loop. -/
def taskRequired (t : TaskData) : List ValidationError :=
  (if t.TaskID = "" then [missingTaskFinding t "TaskID"] else []) ++
  (if t.TaskName = "" then [missingTaskFinding t "TaskName"] else []) ++
  (if t.Duration = 0 then [missingTaskFinding t "Duration"] else []) ++
  (if t.RequiredSkills = [] then [missingTaskFinding t "RequiredSkills"] else [])

/-- `validateRequiredFields`. -/
def validateRequiredFields (cs : List ClientData) (ws : List WorkerData)
    (ts : List TaskData) : List ValidationError :=
  (cs.map clientRequired).flatten ++ (ws.map workerRequired).flatten ++ (ts.map taskRequired).flatten

/-! ## Check 2: duplicate IDs -/

/-- The `Duplicate Client ID` finding for one duplicated key. -/
def dupClientFinding (k : String) : ValidationError :=
  { id := "duplicate-client-" ++ k, type := "error", entity := "clients"
    entityId := k, field := none
    message := "Duplicate Client ID: " ++ k
    suggestion := some "Ensure all Client IDs are unique" }

/-- The `Duplicate Worker ID` finding for one duplicated key. -/
def dupWorkerFinding (k : String) : ValidationError :=
  { id := "duplicate-worker-" ++ k, type := "error", entity := "workers"
    entityId := k, field := none
    message := "Duplicate Worker ID: " ++ k
    suggestion := some "Ensure all Worker IDs are unique" }

/-- The `Duplicate Task ID` finding for one duplicated key. -/
def dupTaskFinding (k : String) : ValidationError :=
  { id := "duplicate-task-" ++ k, type := "error", entity := "tasks"
    entityId := k, field := none
    message := "Duplicate Task ID: " ++ k
    suggestion := some "Ensure all Task IDs are unique" }

/-- `validateDuplicateIds`: per collection, keep the truthy (non-empty) keys,
take the non-first occurrences, deduplicate them with a `Set`, and emit one
finding per remaining key. -/
def validateDuplicateIds (cs : List ClientData) (ws : List WorkerData)
    (ts : List TaskData) : List ValidationError :=
  (jsSetDedup (jsNonFirstOccurrences ((cs.map (fun c => c.ClientID)).filter (fun i => i ≠ "")))).map dupClientFinding ++
  (jsSetDedup (jsNonFirstOccurrences ((ws.map (fun w => w.WorkerID)).filter (fun i => i ≠ "")))).map dupWorkerFinding ++
  (jsSetDedup (jsNonFirstOccurrences ((ts.map (fun t => t.TaskID)).filter (fun i => i ≠ "")))).map dupTaskFinding

/-! ## Check 3: malformed lists -/

/-- `typeof v !== "number" || isNaN(v)` evaluated at a genuine integer
value: always false.  (In this record model the elements of a phase list are
integers by type; the check's predicate is kept so that the traversal shape
matches the source.) -/
def jsNonNumber (_ : Int) : Bool := false

/-- The malformed-slots finding. -/
def malformedSlotsFinding (w : WorkerData) : ValidationError :=
  { id := "worker-" ++ w.WorkerID ++ "-malformed-slots", type := "error"
    entity := "workers", entityId := w.WorkerID, field := some "AvailableSlots"
    message := "Available slots must contain only numeric values"
    suggestion := some "Ensure all slot values are valid numbers" }

/-- The malformed-phases finding. -/
def malformedPhasesFinding (t : TaskData) : ValidationError :=
  { id := "task-" ++ t.TaskID ++ "-malformed-phases", type := "error"
    entity := "tasks", entityId := t.TaskID, field := some "PreferredPhases"
    message := "Preferred phases must contain only numeric values"
    suggestion := some "Ensure all phase values are valid numbers" }

/-- `validateMalformedLists`. -/
def validateMalformedLists (ws : List WorkerData) (ts : List TaskData) :
    List ValidationError :=
  (ws.map (fun w => if w.AvailableSlots.any jsNonNumber then [malformedSlotsFinding w] else [])).flatten ++
  (ts.map (fun t => if t.PreferredPhases.any jsNonNumber then [malformedPhasesFinding t] else [])).flatten

/-! ## Check 4: out-of-range values -/

/-- The invalid-priority finding. -/
def invalidPriorityFinding (c : ClientData) : ValidationError :=
  { id := "client-" ++ c.ClientID ++ "-invalid-priority", type := "error"
    entity := "clients", entityId := c.ClientID, field := some "PriorityLevel"
    message := "Priority level must be between 1-5, got " ++ toString c.PriorityLevel
    suggestion := some "Set priority level to a value between 1 (lowest) and 5 (highest)" }

/-- The invalid-duration finding. -/
def invalidDurationFinding (t : TaskData) : ValidationError :=
  { id := "task-" ++ t.TaskID ++ "-invalid-duration", type := "error"
    entity := "tasks", entityId := t.TaskID, field := some "Duration"
    message := "Duration must be at least 1, got " ++ toString t.Duration
    suggestion := some "Set duration to a positive number of phases" }

/-- The invalid-max-concurrent finding. -/
def invalidConcurrentFinding (t : TaskData) : ValidationError :=
  { id := "task-" ++ t.TaskID ++ "-invalid-concurrent", type := "error"
    entity := "tasks", entityId := t.TaskID, field := some "MaxConcurrent"
    message := "Max concurrent must be at least 1"
    suggestion := some "Set a positive number for maximum parallel assignments" }

/-- The invalid-load finding. -/
def invalidLoadFinding (w : WorkerData) : ValidationError :=
  { id := "worker-" ++ w.WorkerID ++ "-invalid-load", type := "error"
    entity := "workers", entityId := w.WorkerID, field := some "MaxLoadPerPhase"
    message := "Max load per phase must be at least 1"
    suggestion := some "Set a positive number for maximum workload capacity" }

/-- The invalid-slots finding. -/
def invalidSlotsFinding (w : WorkerData) : ValidationError :=
  { id := "worker-" ++ w.WorkerID ++ "-invalid-slots", type := "error"
    entity := "workers", entityId := w.WorkerID, field := some "AvailableSlots"
    message := "Available slots must be positive numbers"
    suggestion := some "Ensure all phase numbers are 1 or greater" }

/-- `validateRangeValues`. -/
def validateRangeValues (cs : List ClientData) (ws : List WorkerData)
    (ts : List TaskData) : List ValidationError :=
  (cs.map (fun c => if c.PriorityLevel < 1 ∨ c.PriorityLevel > 5 then [invalidPriorityFinding c] else [])).flatten ++
  (ts.map (fun t =>
    (if t.Duration < 1 then [invalidDurationFinding t] else []) ++
    (if t.MaxConcurrent < 1 then [invalidConcurrentFinding t] else []))).flatten ++
  (ws.map (fun w =>
    (if w.MaxLoadPerPhase < 1 then [invalidLoadFinding w] else []) ++
    (if w.AvailableSlots.any (fun s => s < 1) then [invalidSlotsFinding w] else []))).flatten

/-! ## Check 5: broken JSON -/

/-- The broken-JSON finding. -/
def brokenJsonFinding (c : ClientData) : ValidationError :=
  { id := "client-" ++ c.ClientID ++ "-broken-json", type := "error"
    entity := "clients", entityId := c.ClientID, field := some "AttributesJSON"
    message := "Invalid JSON format in AttributesJSON field"
    suggestion := some "Fix the JSON syntax or use the object format" }

/-- `validateJSONFields`: a finding only when the payload is a truthy
(non-empty) string that `JSON.parse` rejects. -/
def validateJSONFields (parseOk : String → Bool) (cs : List ClientData) :
    List ValidationError :=
  (cs.map (fun c =>
    match c.AttributesJSON with
    | some s => if s ≠ "" ∧ parseOk s = false then [brokenJsonFinding c] else []
    | none => [])).flatten

/-! ## Check 6: unknown references -/

/-- The unknown-task finding for one requested task ID. -/
def unknownTaskFinding (cid tid : String) : ValidationError :=
  { id := "client-" ++ cid ++ "-unknown-task-" ++ tid, type := "error"
    entity := "clients", entityId := cid, field := some "RequestedTaskIDs"
    message := "Requested task \"" ++ tid ++ "\" does not exist"
    suggestion := some "Remove this task ID or add the corresponding task to the tasks data" }

/-- `validateReferences`: membership in `new Set(tasksData.map(t => t.TaskID))`
is membership in the list of task IDs. -/
def validateReferences (cs : List ClientData) (ts : List TaskData) :
    List ValidationError :=
  (cs.map (fun c =>
    (c.RequestedTaskIDs.filter (fun tid => decide (tid ∉ ts.map (fun t => t.TaskID)))).map
      (unknownTaskFinding c.ClientID))).flatten

/-! ## Check 7: circular co-run groups

The source detects cycles with a recursive closure `hasCycle` over two
mutable sets `visited` and `recursionStack`, created afresh for every co-run
rule.  The recursion is embedded with an explicit fuel counter: `none` means
the fuel ran out (which never happens at the fuel the engine version below
supplies — the totality theorem for claim C8).  `visited` is threaded
through and returned (the source mutates one shared set); the recursion
stack can be passed downward only, because a call that returns `false`
always removes exactly the entry it added, and a `true` result aborts the
whole scan before the stack is read again. -/

/-- `rule.parameters.tasks || []`. -/
def coRunTasksOf (r : BusinessRule) : List String := r.parameters.tasks.getD []

/-- `coRunRules.filter(r => r.id !== rule.id && r.parameters.tasks?.includes(taskId))`,
flattened to the sequence of member tasks the inner loops of `hasCycle`
iterate over (an absent task list makes `tasks?.includes` falsy, exactly as
`getD []` does). -/
def relatedTasksOf (rs : List BusinessRule) (ruleId taskId : String) : List String :=
  ((rs.filter (fun r => decide (r.id ≠ ruleId ∧ taskId ∈ coRunTasksOf r))).map coRunTasksOf).flatten

/-- The two nested loops of `hasCycle` over the related rules' tasks:
recurse (through `rec`, the one-less-fuel instance of `hasCycleF`) into
every related task other than `taskId` itself, short-circuiting on `true`
and threading the `visited` set. -/
def goRelated (rec : String → List String → List String → Option (Bool × List String)) :
    List String → String → List String → List String → Option (Bool × List String)
  | [], _, visited, _ => some (false, visited)
  | t :: rest, taskId, visited, stack =>
      if t = taskId then goRelated rec rest taskId visited stack
      else
        match rec t visited stack with
        | none => none
        | some (true, v) => some (true, v)
        | some (false, v) => goRelated rec rest taskId v stack

/-- One call of `hasCycle(taskId)`: result and final `visited` set, `none`
when the fuel runs out. -/
def hasCycleF (rs : List BusinessRule) (ruleId : String) :
    Nat → String → List String → List String → Option (Bool × List String)
  | 0, _, _, _ => none
  | fuel + 1, taskId, visited, stack =>
      if taskId ∈ stack then some (true, visited)
      else if taskId ∈ visited then some (false, visited)
      else
        goRelated (hasCycleF rs ruleId fuel) (relatedTasksOf rs ruleId taskId) taskId
          (visited ++ [taskId]) (stack ++ [taskId])

/-- Every task ID mentioned by any co-run rule: the recursion of `hasCycle`
never leaves this set. -/
def cycleUniverse (rs : List BusinessRule) : List String := (rs.map coRunTasksOf).flatten

/-- Fuel that is always sufficient (proved for claim C8): one more than the
number of task-ID occurrences across all co-run rules. -/
def cycleFuel (rs : List BusinessRule) : Nat := (cycleUniverse rs).length + 1

/-- The cycle finding for one co-run rule, naming the task at which the
cycle was detected. -/
def circularFinding (r : BusinessRule) (taskId : String) : ValidationError :=
  { id := "circular-corun-" ++ r.id, type := "error", entity := "tasks"
    entityId := taskId, field := none
    message := "Circular co-run dependency detected in rule \"" ++ r.name ++ "\""
    suggestion := some "Remove circular dependencies between co-run task groups" }

/-- The loop `for (const taskId of tasks)` of one rule: threads `visited`,
pushes the rule's single finding and breaks at the first task whose
`hasCycle` returns true. -/
def scanRuleTasks (rs : List BusinessRule) (rule : BusinessRule) :
    List String → List String → Option (List ValidationError)
  | [], _ => some []
  | taskId :: rest, visited =>
      match hasCycleF rs rule.id (cycleFuel rs) taskId visited [] with
      | none => none
      | some (true, _) => some [circularFinding rule taskId]
      | some (false, v) => scanRuleTasks rs rule rest v

/-- The loop over the co-run rules, concatenating per-rule findings. -/
def circularGo (rs : List BusinessRule) : List BusinessRule → Option (List ValidationError)
  | [] => some []
  | rule :: rest =>
      match scanRuleTasks rs rule (coRunTasksOf rule) [] with
      | none => none
      | some es =>
          match circularGo rs rest with
          | none => none
          | some rest' => some (es ++ rest')

/-- `validateCircularCoRuns` (fuelled; `none` never occurs — claim C8). -/
def validateCircularCoRuns (businessRules : List BusinessRule) :
    Option (List ValidationError) :=
  let coRunRules := businessRules.filter (fun r => r.type = "coRun")
  circularGo coRunRules coRunRules

/-! ## Check 8: conflicting rules vs phase windows -/

/-- The body of the loop building `taskPhaseWindows`: set the task's own
preferred phases when the task exists, then overwrite with
`phaseRule.parameters.allowedPhases || []` when an explicit phase-window
rule for the task exists. -/
def windowStep (pwRules : List BusinessRule) (ts : List TaskData)
    (m : List (String × List Int)) (taskId : String) : List (String × List Int) :=
  let m1 := match ts.find? (fun t => t.TaskID = taskId) with
    | some task => jsMapSet m taskId task.PreferredPhases
    | none => m
  match pwRules.find? (fun r => r.parameters.taskId = some taskId) with
  | some phaseRule => jsMapSet m1 taskId (phaseRule.parameters.allowedPhases.getD [])
  | none => m1

/-- `taskPhaseWindows` for one co-run rule. -/
def taskPhaseWindows (pwRules : List BusinessRule) (ts : List TaskData)
    (coRunTasks : List String) : List (String × List Int) :=
  coRunTasks.foldl (windowStep pwRules ts) []

/-- The conflicting-phases finding for one co-run rule. -/
def conflictFinding (r : BusinessRule) : ValidationError :=
  { id := "conflicting-phases-" ++ r.id, type := "error", entity := "tasks"
    entityId := String.intercalate ", " (coRunTasksOf r), field := none
    message := "Co-run tasks have no overlapping phase windows: " ++
      String.intercalate ", " (coRunTasksOf r)
    suggestion := some "Adjust phase windows to allow co-run tasks to execute in the same phases" }

/-- The per-co-run-rule body of `validateRuleConflicts`. -/
def ruleConflictPerRule (pwRules : List BusinessRule) (ts : List TaskData)
    (rule : BusinessRule) : List ValidationError :=
  let phaseArrays := (taskPhaseWindows pwRules ts (coRunTasksOf rule)).map (fun kv => kv.2)
  if 1 < phaseArrays.length then
    if jsIntersectAll phaseArrays = [] then [conflictFinding rule] else []
  else []

/-- `validateRuleConflicts`. -/
def validateRuleConflicts (businessRules : List BusinessRule) (ts : List TaskData) :
    List ValidationError :=
  let pwRules := businessRules.filter (fun r => r.type = "phaseWindow")
  let coRunRules := businessRules.filter (fun r => r.type = "coRun")
  (coRunRules.map (ruleConflictPerRule pwRules ts)).flatten

/-! ## Check 9: overloaded workers -/

/-- The overload warning. -/
def overloadFinding (w : WorkerData) : ValidationError :=
  { id := "worker-" ++ w.WorkerID ++ "-overloaded", type := "warning"
    entity := "workers", entityId := w.WorkerID, field := none
    message := "Worker has fewer available slots (" ++ toString w.AvailableSlots.length ++
      ") than max load capacity (" ++ toString w.MaxLoadPerPhase ++ ")"
    suggestion := some "Consider increasing available slots or reducing max load per phase" }

/-- `validateWorkerOverload`. -/
def validateWorkerOverload (ws : List WorkerData) : List ValidationError :=
  (ws.map (fun w =>
    if (w.AvailableSlots.length : Int) < w.MaxLoadPerPhase then [overloadFinding w] else [])).flatten

/-! ## Check 10: phase-slot saturation -/

/-- `map.set(phase, (map.get(phase) || 0) + delta)` (a stored 0 is falsy,
which coincides with defaulting the absent case to 0). -/
def bumpPhase (m : List (Int × Int)) (p delta : Int) : List (Int × Int) :=
  jsMapSet m p (((jsMapGet m p).getD 0) + delta)

/-- The per-phase available-capacity map: every occurrence of a phase in a
worker's slot list adds that worker's `MaxLoadPerPhase`. -/
def phaseSlots (ws : List WorkerData) : List (Int × Int) :=
  ws.foldl (fun m w => w.AvailableSlots.foldl (fun m' p => bumpPhase m' p w.MaxLoadPerPhase) m) []

/-- `task.PreferredPhases.length > 0 ? task.PreferredPhases : [1]`. -/
def effectivePhases (t : TaskData) : List Int :=
  if 0 < t.PreferredPhases.length then t.PreferredPhases else [1]

/-- The per-phase required-capacity map: every occurrence of a phase in a
task's effective phase list adds that task's `Duration`. -/
def phaseRequirements (ts : List TaskData) : List (Int × Int) :=
  ts.foldl (fun m t => (effectivePhases t).foldl (fun m' p => bumpPhase m' p t.Duration) m) []

/-- The saturation warning for one phase. -/
def saturationFinding (phase required available : Int) : ValidationError :=
  { id := "phase-saturation-" ++ toString phase, type := "warning"
    entity := "tasks", entityId := "Phase " ++ toString phase, field := none
    message := "Phase " ++ toString phase ++ " is oversaturated: requires " ++
      toString required ++ " slots but only " ++ toString available ++ " available"
    suggestion := some "Add more workers to this phase or redistribute tasks to other phases" }

/-- `validatePhaseSlotSaturation`. -/
def validatePhaseSlotSaturation (ws : List WorkerData) (ts : List TaskData) :
    List ValidationError :=
  let slots := phaseSlots ws
  (phaseRequirements ts).filterMap (fun pr =>
    let available := (jsMapGet slots pr.1).getD 0
    if pr.2 > available then some (saturationFinding pr.1 pr.2 available) else none)

/-! ## Check 11: skill coverage -/

/-- The missing-skill warning. -/
def missingSkillFinding (t : TaskData) (skill : String) : ValidationError :=
  { id := "task-" ++ t.TaskID ++ "-missing-skill-" ++ skill, type := "warning"
    entity := "tasks", entityId := t.TaskID, field := some "RequiredSkills"
    message := "No worker has the required skill \"" ++ skill ++ "\""
    suggestion := some "Add a worker with this skill or remove it from task requirements" }

/-- `validateSkillCoverage`: the union of all worker skills is queried only
for membership, so the list of all skill occurrences models the `Set`. -/
def validateSkillCoverage (ws : List WorkerData) (ts : List TaskData) :
    List ValidationError :=
  let availableSkills := (ws.map (fun w => w.Skills)).flatten
  (ts.map (fun t =>
    (t.RequiredSkills.filter (fun s => decide (s ∉ availableSkills))).map
      (missingSkillFinding t))).flatten

/-! ## Check 12: max-concurrency feasibility -/

/-- `workersData.filter(worker => task.RequiredSkills.every(skill => worker.Skills.includes(skill)))`. -/
def qualifiedWorkers (ws : List WorkerData) (t : TaskData) : List WorkerData :=
  ws.filter (fun w => t.RequiredSkills.all (fun s => decide (s ∈ w.Skills)))

/-- The qualified workers that also have a slot in the task's preferred
phases. -/
def availableQualifiedWorkers (ws : List WorkerData) (t : TaskData) : List WorkerData :=
  (qualifiedWorkers ws t).filter (fun w =>
    w.AvailableSlots.any (fun slot => decide (slot ∈ t.PreferredPhases)))

/-- The skill-scarcity warning, citing `MaxConcurrent` and the qualified
count. -/
def infeasibleConcurrencyFinding (t : TaskData) (qualified : Nat) : ValidationError :=
  { id := "task-" ++ t.TaskID ++ "-infeasible-concurrency", type := "warning"
    entity := "tasks", entityId := t.TaskID, field := some "MaxConcurrent"
    message := "Max concurrent (" ++ toString t.MaxConcurrent ++ ") exceeds qualified workers (" ++
      toString qualified ++ ")"
    suggestion := some "Reduce max concurrent value or add more qualified workers" }

/-- The phase-scarcity warning, citing `MaxConcurrent` and the
phase-constrained qualified count. -/
def infeasiblePhaseConcurrencyFinding (t : TaskData) (available : Nat) : ValidationError :=
  { id := "task-" ++ t.TaskID ++ "-infeasible-phase-concurrency", type := "warning"
    entity := "tasks", entityId := t.TaskID, field := none
    message := "Max concurrent (" ++ toString t.MaxConcurrent ++
      ") exceeds available qualified workers (" ++ toString available ++ ") in preferred phases"
    suggestion := some "Adjust preferred phases, reduce max concurrent, or add more qualified workers" }

/-- The loop body of `validateMaxConcurrencyFeasibility` for one task: the
phase-constrained comparison runs only when the task has preferred phases. -/
def maxConcurrencyPerTask (ws : List WorkerData) (t : TaskData) : List ValidationError :=
  (if (qualifiedWorkers ws t).length < t.MaxConcurrent
   then [infeasibleConcurrencyFinding t (qualifiedWorkers ws t).length] else []) ++
  (if 0 < t.PreferredPhases.length then
    (if (availableQualifiedWorkers ws t).length < t.MaxConcurrent
     then [infeasiblePhaseConcurrencyFinding t (availableQualifiedWorkers ws t).length] else [])
   else [])

/-- `validateMaxConcurrencyFeasibility`. -/
def validateMaxConcurrencyFeasibility (ws : List WorkerData) (ts : List TaskData) :
    List ValidationError :=
  (ts.map (maxConcurrencyPerTask ws)).flatten

/-! ## The orchestrator -/

/-- `runValidations`, with the fuel of the cycle scan made visible: `none`
would mean the cycle traversal ran out of fuel, and claim C8 proves it never
does. -/
def runValidationsO (parseOk : String → Bool) (cs : List ClientData)
    (ws : List WorkerData) (ts : List TaskData) (rules : List BusinessRule) :
    Option (List ValidationError) :=
  match validateCircularCoRuns rules with
  | none => none
  | some circ => some
      (validateRequiredFields cs ws ts ++
       validateDuplicateIds cs ws ts ++
       validateMalformedLists ws ts ++
       validateRangeValues cs ws ts ++
       validateJSONFields parseOk cs ++
       validateReferences cs ts ++
       circ ++
       validateRuleConflicts rules ts ++
       validateWorkerOverload ws ++
       validatePhaseSlotSaturation ws ts ++
       validateSkillCoverage ws ts ++
       validateMaxConcurrencyFeasibility ws ts)

/-- `runValidations` as the caller sees it. -/
def runValidations (parseOk : String → Bool) (cs : List ClientData)
    (ws : List WorkerData) (ts : List TaskData) (rules : List BusinessRule) :
    List ValidationError :=
  (runValidationsO parseOk cs ws ts rules).getD []

/-! ## Lemmas about the duplicate-ID machinery -/

lemma count_two_of_get?_ne {α : Type} [DecidableEq α] {l : List α} {a : α} :
    ∀ {i j : Nat}, i ≠ j → l.get? i = some a → l.get? j = some a → 2 ≤ l.count a := by
  induction l with
  | nil => intro i j _ hi _; simp at hi
  | cons x xs ih =>
    intro i j hij hi hj
    match i, j with
    | 0, 0 => exact absurd rfl hij
    | 0, j + 1 =>
      have hxa : x = a := by simpa using hi
      subst hxa
      have hmem : x ∈ xs := List.get?_mem hj
      have h1 : 0 < xs.count x := List.count_pos_iff.mpr hmem
      have h2 : (x :: xs).count x = xs.count x + 1 := List.count_cons_self x xs
      omega
    | i + 1, 0 =>
      have hxa : x = a := by simpa using hj
      subst hxa
      have hmem : x ∈ xs := List.get?_mem hi
      have h1 : 0 < xs.count x := List.count_pos_iff.mpr hmem
      have h2 : (x :: xs).count x = xs.count x + 1 := List.count_cons_self x xs
      omega
    | i + 1, j + 1 =>
      have h2 : 2 ≤ xs.count a := ih (fun h => hij (by omega)) hi hj
      calc 2 ≤ xs.count a := h2
        _ ≤ (x :: xs).count a := List.count_le_count_cons a x xs

lemma exists_nonfirst_of_two_le_count {α : Type} [DecidableEq α] {l : List α} {a : α}
    (h : 2 ≤ l.count a) : ∃ i, l.get? i = some a ∧ l.indexOf a ≠ i := by
  induction l with
  | nil => simp at h
  | cons x xs ih =>
    by_cases hxa : x = a
    · subst hxa
      rw [List.count_cons_self] at h
      have hmem : x ∈ xs := List.count_pos_iff.mp (by omega)
      obtain ⟨k, hk⟩ := List.mem_iff_get?.mp hmem
      exact ⟨k + 1, by simpa using hk, by simp [List.indexOf_cons_self]⟩
    · rw [List.count_cons_of_ne (fun h' => hxa h'.symm)] at h
      obtain ⟨k, hk, hne⟩ := ih h
      refine ⟨k + 1, by simpa using hk, ?_⟩
      rw [List.indexOf_cons_ne xs hxa]
      omega

/-- An element appears among the non-first occurrences exactly when it
appears at least twice. -/
lemma mem_jsNonFirstOccurrences {α : Type} [DecidableEq α] {l : List α} {a : α} :
    a ∈ jsNonFirstOccurrences l ↔ 2 ≤ l.count a := by
  unfold jsNonFirstOccurrences
  simp only [List.mem_map, List.mem_filter, decide_eq_true_eq]
  constructor
  · rintro ⟨⟨i, b⟩, ⟨hmem, hne⟩, rfl⟩
    have hget : l.get? i = some b := List.mem_enum_iff_get?.mp hmem
    have hbl : b ∈ l := List.get?_mem hget
    exact count_two_of_get?_ne (i := l.indexOf b) (j := i) hne (List.indexOf_get? hbl) hget
  · intro h
    obtain ⟨i, hget, hne⟩ := exists_nonfirst_of_two_le_count h
    exact ⟨(i, a), ⟨List.mem_enum_iff_get?.mpr hget, hne⟩, rfl⟩

lemma mem_jsSetDedupAux {α : Type} [DecidableEq α] {a : α} :
    ∀ (l seen : List α), a ∈ jsSetDedupAux seen l ↔ a ∈ l ∧ a ∉ seen := by
  intro l
  induction l with
  | nil => intro seen; simp [jsSetDedupAux]
  | cons x xs ih =>
    intro seen
    by_cases hx : x ∈ seen
    · simp only [jsSetDedupAux, if_pos hx, ih seen, List.mem_cons]
      constructor
      · rintro ⟨hm, hs⟩; exact ⟨Or.inr hm, hs⟩
      · rintro ⟨hm | hm, hs⟩
        · exact absurd (hm ▸ hx) hs
        · exact ⟨hm, hs⟩
    · simp only [jsSetDedupAux, if_neg hx, List.mem_cons, ih (x :: seen)]
      constructor
      · rintro (rfl | ⟨hm, hs⟩)
        · exact ⟨Or.inl rfl, hx⟩
        · exact ⟨Or.inr hm, fun h => hs (Or.inr h)⟩
      · rintro ⟨rfl | hm, hs⟩
        · exact Or.inl rfl
        · by_cases hax : a = x
          · exact Or.inl hax
          · exact Or.inr ⟨hm, by simp [hax, hs]⟩

lemma mem_jsSetDedup {α : Type} [DecidableEq α] {a : α} {l : List α} :
    a ∈ jsSetDedup l ↔ a ∈ l := by
  simp [jsSetDedup, mem_jsSetDedupAux]

lemma nodup_jsSetDedupAux {α : Type} [DecidableEq α] :
    ∀ (l seen : List α), (jsSetDedupAux seen l).Nodup := by
  intro l
  induction l with
  | nil => intro seen; simp [jsSetDedupAux]
  | cons x xs ih =>
    intro seen
    by_cases hx : x ∈ seen
    · simpa [jsSetDedupAux, if_pos hx] using ih seen
    · simp only [jsSetDedupAux, if_neg hx, List.nodup_cons]
      refine ⟨fun hmem => ?_, ih (x :: seen)⟩
      exact ((mem_jsSetDedupAux xs (x :: seen)).mp hmem).2 (List.mem_cons_self x seen)

lemma nodup_jsSetDedup {α : Type} [DecidableEq α] (l : List α) : (jsSetDedup l).Nodup :=
  nodup_jsSetDedupAux l []

/-- Count of one key in the deduplicated duplicate list: 1 when the key
occurs at least twice in the raw list, 0 otherwise. -/
lemma count_jsSetDedup_jsNonFirst {α : Type} [DecidableEq α] (l : List α) (a : α) :
    (jsSetDedup (jsNonFirstOccurrences l)).count a =
      if 2 ≤ l.count a then 1 else 0 := by
  by_cases h : 2 ≤ l.count a
  · rw [if_pos h]
    exact List.count_eq_one_of_mem (nodup_jsSetDedup _)
      (mem_jsSetDedup.mpr (mem_jsNonFirstOccurrences.mpr h))
  · rw [if_neg h]
    exact List.count_eq_zero_of_not_mem
      (fun hm => h (mem_jsNonFirstOccurrences.mp (mem_jsSetDedup.mp hm)))

lemma dupClientFinding_injective : Function.Injective dupClientFinding :=
  fun _ _ h => congrArg ValidationError.entityId h

lemma dupWorkerFinding_injective : Function.Injective dupWorkerFinding :=
  fun _ _ h => congrArg ValidationError.entityId h

lemma dupTaskFinding_injective : Function.Injective dupTaskFinding :=
  fun _ _ h => congrArg ValidationError.entityId h

/-- A client-duplicate finding never equals a worker- or task-duplicate
finding (the `entity` components differ), so counts do not cross segments. -/
lemma count_dup_segment {f g : String → ValidationError}
    (hfg : ∀ k k', f k ≠ g k') (l : List String) (k : String) :
    (l.map g).count (f k) = 0 := by
  refine List.count_eq_zero_of_not_mem (fun hmem => ?_)
  obtain ⟨k', _, hk'⟩ := List.mem_map.mp hmem
  exact hfg k k' hk'.symm

/-- The exact count of each duplicate finding in `validateDuplicateIds`. -/
lemma count_validateDuplicateIds (cs : List ClientData) (ws : List WorkerData)
    (ts : List TaskData) (key : String) :
    ((validateDuplicateIds cs ws ts).count (dupClientFinding key) =
      if 2 ≤ (((cs.map (fun c => c.ClientID)).filter (fun i => i ≠ "")).count key) then 1 else 0) ∧
    ((validateDuplicateIds cs ws ts).count (dupWorkerFinding key) =
      if 2 ≤ (((ws.map (fun w => w.WorkerID)).filter (fun i => i ≠ "")).count key) then 1 else 0) ∧
    ((validateDuplicateIds cs ws ts).count (dupTaskFinding key) =
      if 2 ≤ (((ts.map (fun t => t.TaskID)).filter (fun i => i ≠ "")).count key) then 1 else 0) := by
  have hcw : ∀ k k', dupClientFinding k ≠ dupWorkerFinding k' := by
    intro k k' h
    exact absurd (congrArg ValidationError.entity h) (by simp [dupClientFinding, dupWorkerFinding])
  have hct : ∀ k k', dupClientFinding k ≠ dupTaskFinding k' := by
    intro k k' h
    exact absurd (congrArg ValidationError.entity h) (by simp [dupClientFinding, dupTaskFinding])
  have hwt : ∀ k k', dupWorkerFinding k ≠ dupTaskFinding k' := by
    intro k k' h
    exact absurd (congrArg ValidationError.entity h) (by simp [dupWorkerFinding, dupTaskFinding])
  unfold validateDuplicateIds
  refine ⟨?_, ?_, ?_⟩
  · rw [List.count_append, List.count_append,
      List.count_map_of_injective _ _ dupClientFinding_injective,
      count_dup_segment hcw, count_dup_segment hct,
      count_jsSetDedup_jsNonFirst]
    omega
  · rw [List.count_append, List.count_append,
      List.count_map_of_injective _ _ dupWorkerFinding_injective,
      count_dup_segment (fun k k' h => hcw k' k h.symm),
      count_dup_segment hwt, count_jsSetDedup_jsNonFirst]
    omega
  · rw [List.count_append, List.count_append,
      List.count_map_of_injective _ _ dupTaskFinding_injective,
      count_dup_segment (fun k k' h => hct k' k h.symm),
      count_dup_segment (fun k k' h => hwt k' k h.symm),
      count_jsSetDedup_jsNonFirst]
    omega

/-- C6: for every collection (clients, workers, tasks) and every non-empty
primary key shared by at least two records, `validateDuplicateIds` produces
exactly one duplicate-key error finding naming that key, regardless of how
many records share it; and records whose primary key is empty are excluded
from duplicate detection, so no duplicate finding ever names the empty
key. -/
theorem claim_c6 (cs : List ClientData) (ws : List WorkerData) (ts : List TaskData)
    (key : String) (hk : key ≠ "") :
    ((validateDuplicateIds cs ws ts).count (dupClientFinding key) =
      if 2 ≤ (cs.map (fun c => c.ClientID)).count key then 1 else 0) ∧
    ((validateDuplicateIds cs ws ts).count (dupWorkerFinding key) =
      if 2 ≤ (ws.map (fun w => w.WorkerID)).count key then 1 else 0) ∧
    ((validateDuplicateIds cs ws ts).count (dupTaskFinding key) =
      if 2 ≤ (ts.map (fun t => t.TaskID)).count key then 1 else 0) ∧
    ((validateDuplicateIds cs ws ts).count (dupClientFinding "") = 0) ∧
    ((validateDuplicateIds cs ws ts).count (dupWorkerFinding "") = 0) ∧
    ((validateDuplicateIds cs ws ts).count (dupTaskFinding "") = 0) := by
  have hdec : decide (key ≠ "") = true := by simp [hk]
  have hfilter : ∀ (l : List String),
      (l.filter (fun i => decide (i ≠ ""))).count key = l.count key :=
    fun l => List.count_filter hdec
  have hempty : ∀ (l : List String),
      (l.filter (fun i => decide (i ≠ ""))).count "" = 0 := by
    intro l
    refine List.count_eq_zero_of_not_mem (fun hmem => ?_)
    have := (List.mem_filter.mp hmem).2
    simp at this
  obtain ⟨h1, h2, h3⟩ := count_validateDuplicateIds cs ws ts key
  obtain ⟨e1, e2, e3⟩ := count_validateDuplicateIds cs ws ts ""
  refine ⟨?_, ?_, ?_, ?_, ?_, ?_⟩
  · rw [h1, hfilter]
  · rw [h2, hfilter]
  · rw [h3, hfilter]
  · rw [e1, hempty]; decide
  · rw [e2, hempty]; decide
  · rw [e3, hempty]; decide

/-- Three client records sharing the key `C1`. -/
def dupSampleClients : List ClientData :=
  [{ ClientID := "C1", ClientName := "a", PriorityLevel := 1,
     RequestedTaskIDs := [], AttributesJSON := none },
   { ClientID := "C1", ClientName := "b", PriorityLevel := 2,
     RequestedTaskIDs := [], AttributesJSON := none },
   { ClientID := "C1", ClientName := "c", PriorityLevel := 3,
     RequestedTaskIDs := [], AttributesJSON := none }]

/-- Witness for C6 at a concrete input: the key `C1`, shared by three client
records, yields exactly one duplicate finding. -/
theorem claim_c6_witness :
    ("C1" : String) ≠ "" ∧
    ((validateDuplicateIds dupSampleClients [] []).count (dupClientFinding "C1") =
      if 2 ≤ (dupSampleClients.map (fun c => c.ClientID)).count "C1" then 1 else 0) := by
  constructor
  · decide
  · exact (claim_c6 dupSampleClients [] [] "C1" (by decide)).1

/-! ## Lemmas about cross-reference findings -/

lemma string_append_cancel_left {a x y : String} (h : a ++ x = a ++ y) : x = y := by
  apply String.ext
  have hd : a.data ++ x.data = a.data ++ y.data := by
    rw [← String.data_append, ← String.data_append, h]
  exact List.append_cancel_left hd

lemma string_append_cancel_right {x y b : String} (h : x ++ b = y ++ b) : x = y := by
  apply String.ext
  have hd : x.data ++ b.data = y.data ++ b.data := by
    rw [← String.data_append, ← String.data_append, h]
  exact List.append_cancel_right hd

lemma unknownTaskFinding_inj_right (cid : String) :
    Function.Injective (unknownTaskFinding cid) := by
  intro x y h
  have hm := congrArg ValidationError.message h
  simp only [unknownTaskFinding] at hm
  exact string_append_cancel_left (string_append_cancel_right hm)

/-- The exact count of each unknown-task finding in `validateReferences`:
zero when the requested ID exists, and otherwise the total number of times
clients with the named ID request it. -/
lemma count_validateReferences (cs : List ClientData) (ts : List TaskData)
    (cid tid : String) :
    (validateReferences cs ts).count (unknownTaskFinding cid tid) =
      if tid ∈ ts.map (fun t => t.TaskID) then 0
      else ((cs.filter (fun c => c.ClientID = cid)).map
              (fun c => c.RequestedTaskIDs.count tid)).sum := by
  unfold validateReferences
  rw [List.count_flatten, List.map_map]
  induction cs with
  | nil => simp
  | cons c cs ih =>
    simp only [List.map_cons, List.sum_cons, List.filter_cons]
    by_cases hcid : c.ClientID = cid
    · have hcount : ((c.RequestedTaskIDs.filter (fun t => decide (t ∉ ts.map (fun t => t.TaskID)))).map
          (unknownTaskFinding c.ClientID)).count (unknownTaskFinding cid tid) =
          if tid ∈ ts.map (fun t => t.TaskID) then 0 else c.RequestedTaskIDs.count tid := by
        rw [hcid, List.count_map_of_injective _ _ (unknownTaskFinding_inj_right cid)]
        by_cases hmem : tid ∈ ts.map (fun t => t.TaskID)
        · rw [if_pos hmem]
          refine List.count_eq_zero_of_not_mem (fun hin => ?_)
          have := (List.mem_filter.mp hin).2
          simp [hmem] at this
        · rw [if_neg hmem, List.count_filter (by simpa using hmem)]
      rw [Function.comp_apply, hcount, ih]
      by_cases hmem : tid ∈ ts.map (fun t => t.TaskID) <;> simp [hmem, hcid]
    · have hcount : ((c.RequestedTaskIDs.filter (fun t => decide (t ∉ ts.map (fun t => t.TaskID)))).map
          (unknownTaskFinding c.ClientID)).count (unknownTaskFinding cid tid) = 0 := by
        refine List.count_eq_zero_of_not_mem (fun hin => ?_)
        obtain ⟨t', _, ht'⟩ := List.mem_map.mp hin
        exact hcid (congrArg ValidationError.entityId ht')
      rw [Function.comp_apply, hcount, ih]
      simp [hcid]

/-- A client requesting the missing task `T9` twice. -/
def refSampleClient : ClientData :=
  { ClientID := "C1", ClientName := "c", PriorityLevel := 1,
    RequestedTaskIDs := ["T9", "T9"], AttributesJSON := none }

/-- C7 counterexample: a client that requests the absent task ID `T9` twice
receives two identical error findings referencing `T9`, so "exactly one
error finding references that ID" fails as stated. -/
theorem claim_c7_cex :
    validateReferences [refSampleClient] [] =
      [unknownTaskFinding "C1" "T9", unknownTaskFinding "C1" "T9"] := by
  decide

/-- C7 as amended: `validateReferences` emits one error finding for every
client and every occurrence of a requested task ID that is not in the task
collection (exact string match); a requested ID that does exist produces no
finding; and the number of findings referencing a given client ID and
missing task ID equals the total number of times clients with that ID
request it. -/
theorem claim_c7 (cs : List ClientData) (ts : List TaskData) (cid tid : String) :
    ((validateReferences cs ts).count (unknownTaskFinding cid tid) =
      if tid ∈ ts.map (fun t => t.TaskID) then 0
      else ((cs.filter (fun c => c.ClientID = cid)).map
              (fun c => c.RequestedTaskIDs.count tid)).sum) ∧
    (∀ c ∈ cs, ∀ t ∈ c.RequestedTaskIDs, t ∉ ts.map (fun t => t.TaskID) →
      unknownTaskFinding c.ClientID t ∈ validateReferences cs ts) := by
  refine ⟨count_validateReferences cs ts cid tid, ?_⟩
  intro c hc t ht hmiss
  unfold validateReferences
  refine List.mem_flatten.mpr ⟨_, List.mem_map_of_mem _ hc, ?_⟩
  exact List.mem_map_of_mem _ (List.mem_filter.mpr ⟨ht, by simpa using hmiss⟩)

/-! ## Totality of the cycle scan (claim C8)

The fuel `cycleFuel rs` always suffices: every recursive call of `hasCycle`
targets a task in `cycleUniverse rs`, and a call that recurses first adds an
unvisited such task to `visited`, so the number of universe tasks not yet
visited strictly decreases.  -/

/-- The number of universe members not yet visited: the decreasing measure
of the traversal. -/
def cycleMeasure (rs : List BusinessRule) (visited : List String) : Nat :=
  ((cycleUniverse rs).dedup.filter (fun x => decide (x ∉ visited))).length

lemma length_filter_le_of_imp {α : Type} {l : List α} {p q : α → Bool}
    (h : ∀ a, p a = true → q a = true) : (l.filter p).length ≤ (l.filter q).length := by
  induction l with
  | nil => simp
  | cons x xs ih =>
    simp only [List.filter_cons]
    cases hp : p x with
    | true =>
      rw [h x hp]
      simpa using ih
    | false =>
      cases hq : q x <;> simp <;> omega

lemma cycleMeasure_mono {rs : List BusinessRule} {v v' : List String}
    (h : ∀ x, x ∈ v → x ∈ v') : cycleMeasure rs v' ≤ cycleMeasure rs v := by
  refine length_filter_le_of_imp (fun a ha => ?_)
  simp only [decide_eq_true_eq] at ha ⊢
  exact fun hmem => ha (h a hmem)

lemma cycleMeasure_append_lt {rs : List BusinessRule} {visited : List String}
    {taskId : String} (htid : taskId ∈ cycleUniverse rs) (hnv : taskId ∉ visited) :
    cycleMeasure rs (visited ++ [taskId]) < cycleMeasure rs visited := by
  unfold cycleMeasure
  have hsub : ((cycleUniverse rs).dedup.filter (fun x => decide (x ∉ visited ++ [taskId]))).length ≤
      (((cycleUniverse rs).dedup.filter (fun x => decide (x ∉ visited))).filter
        (fun x => decide (x ≠ taskId))).length := by
    rw [List.filter_filter]
    refine length_filter_le_of_imp (fun a ha => ?_)
    simp only [decide_eq_true_eq, Bool.and_eq_true, List.mem_append] at ha ⊢
    constructor
    · intro h; exact ha (Or.inr (by simpa using h))
    · intro h; exact ha (Or.inl h)
  have hlt : (((cycleUniverse rs).dedup.filter (fun x => decide (x ∉ visited))).filter
      (fun x => decide (x ≠ taskId))).length <
      ((cycleUniverse rs).dedup.filter (fun x => decide (x ∉ visited))).length := by
    refine List.length_filter_lt_length_iff_exists.mpr ?_
    refine ⟨taskId, List.mem_filter.mpr ⟨List.mem_dedup.mpr htid, by simpa using hnv⟩, by simp⟩
  omega

lemma cycleMeasure_le (rs : List BusinessRule) (visited : List String) :
    cycleMeasure rs visited ≤ (cycleUniverse rs).length :=
  le_trans ((List.filter_sublist _).length_le) ((List.dedup_sublist _).length_le)

lemma relatedTasksOf_subset (rs : List BusinessRule) (ruleId taskId : String) :
    ∀ t ∈ relatedTasksOf rs ruleId taskId, t ∈ cycleUniverse rs := by
  intro t ht
  unfold relatedTasksOf at ht
  obtain ⟨l, hl, htl⟩ := List.mem_flatten.mp ht
  obtain ⟨r, hr, rfl⟩ := List.mem_map.mp hl
  exact List.mem_flatten.mpr ⟨coRunTasksOf r,
    List.mem_map_of_mem _ (List.mem_of_mem_filter hr), htl⟩

lemma goRelated_succeeds (rs : List BusinessRule) (ruleId : String) (f : Nat)
    (ihf : ∀ taskId visited stack, taskId ∈ cycleUniverse rs →
      cycleMeasure rs visited < f →
      ∃ b v', hasCycleF rs ruleId f taskId visited stack = some (b, v') ∧
        ∀ x, x ∈ visited → x ∈ v') :
    ∀ (ts : List String) (taskId : String) (visited stack : List String),
      (∀ t ∈ ts, t ∈ cycleUniverse rs) → cycleMeasure rs visited < f →
      ∃ b v', goRelated (hasCycleF rs ruleId f) ts taskId visited stack = some (b, v') ∧
        ∀ x, x ∈ visited → x ∈ v' := by
  intro ts
  induction ts with
  | nil =>
    intro taskId visited stack _ _
    exact ⟨false, visited, by rw [goRelated], fun x hx => hx⟩
  | cons t rest ih =>
    intro taskId visited stack hsub hmeas
    by_cases hteq : t = taskId
    · rw [goRelated, if_pos hteq]
      exact ih taskId visited stack (fun u hu => hsub u (List.mem_cons_of_mem t hu)) hmeas
    · obtain ⟨b, v', hres, hgrow⟩ :=
        ihf t visited stack (hsub t (List.mem_cons_self t rest)) hmeas
      rw [goRelated, if_neg hteq, hres]
      cases b with
      | true => exact ⟨true, v', rfl, hgrow⟩
      | false =>
        have hmeas' : cycleMeasure rs v' < f :=
          lt_of_le_of_lt (cycleMeasure_mono hgrow) hmeas
        obtain ⟨b'', v'', hres'', hgrow''⟩ :=
          ih taskId v' stack (fun u hu => hsub u (List.mem_cons_of_mem t hu)) hmeas'
        exact ⟨b'', v'', hres'', fun x hx => hgrow'' x (hgrow x hx)⟩

lemma hasCycleF_succeeds (rs : List BusinessRule) (ruleId : String) :
    ∀ (fuel : Nat) (taskId : String) (visited stack : List String),
      taskId ∈ cycleUniverse rs → cycleMeasure rs visited < fuel →
      ∃ b v', hasCycleF rs ruleId fuel taskId visited stack = some (b, v') ∧
        ∀ x, x ∈ visited → x ∈ v' := by
  intro fuel
  induction fuel using Nat.strong_induction_on with
  | _ fuel ih =>
    match fuel with
    | 0 => intro taskId visited stack _ hmeas; omega
    | f + 1 =>
      intro taskId visited stack htid hmeas
      by_cases h1 : taskId ∈ stack
      · exact ⟨true, visited, by rw [hasCycleF, if_pos h1], fun x hx => hx⟩
      · by_cases h2 : taskId ∈ visited
        · exact ⟨false, visited, by rw [hasCycleF, if_neg h1, if_pos h2], fun x hx => hx⟩
        · have hmeas' : cycleMeasure rs (visited ++ [taskId]) < f :=
            lt_of_lt_of_le (cycleMeasure_append_lt htid h2) (by omega)
          obtain ⟨b, v', hres, hgrow⟩ :=
            goRelated_succeeds rs ruleId f
              (fun tid v s ht hm => ih f (by omega) tid v s ht hm)
              (relatedTasksOf rs ruleId taskId) taskId
              (visited ++ [taskId]) (stack ++ [taskId])
              (relatedTasksOf_subset rs ruleId taskId) hmeas'
          refine ⟨b, v', by rw [hasCycleF, if_neg h1, if_neg h2, hres], ?_⟩
          exact fun x hx => hgrow x (List.mem_append_left _ hx)

lemma scanRuleTasks_isSome (rs : List BusinessRule) (rule : BusinessRule) :
    ∀ (tids visited : List String), (∀ t ∈ tids, t ∈ cycleUniverse rs) →
      (scanRuleTasks rs rule tids visited).isSome := by
  intro tids
  induction tids with
  | nil => intro visited _; rw [scanRuleTasks]; rfl
  | cons t rest ih =>
    intro visited hsub
    have hmeas : cycleMeasure rs visited < cycleFuel rs :=
      lt_of_le_of_lt (cycleMeasure_le rs visited) (Nat.lt_succ_self _)
    obtain ⟨b, v', hres, _⟩ :=
      hasCycleF_succeeds rs rule.id (cycleFuel rs) t visited []
        (hsub t (List.mem_cons_self t rest)) hmeas
    rw [scanRuleTasks, hres]
    cases b with
    | true => rfl
    | false => exact ih v' (fun u hu => hsub u (List.mem_cons_of_mem t hu))

lemma circularGo_isSome (rs : List BusinessRule) :
    ∀ (rules : List BusinessRule), (∀ r ∈ rules, ∀ t ∈ coRunTasksOf r, t ∈ cycleUniverse rs) →
      (circularGo rs rules).isSome := by
  intro rules
  induction rules with
  | nil => intro _; rfl
  | cons rule rest ih =>
    intro hsub
    have h1 := scanRuleTasks_isSome rs rule (coRunTasksOf rule) []
      (hsub rule (List.mem_cons_self rule rest))
    obtain ⟨es, hes⟩ := Option.isSome_iff_exists.mp h1
    have h2 := ih (fun r hr => hsub r (List.mem_cons_of_mem rule hr))
    obtain ⟨es', hes'⟩ := Option.isSome_iff_exists.mp h2
    rw [circularGo, hes, hes']
    rfl

lemma validateCircularCoRuns_isSome (businessRules : List BusinessRule) :
    (validateCircularCoRuns businessRules).isSome := by
  unfold validateCircularCoRuns
  refine circularGo_isSome _ _ (fun r hr t ht => ?_)
  exact List.mem_flatten.mpr ⟨coRunTasksOf r, List.mem_map_of_mem _ hr, ht⟩

/-- C8: `runValidations` terminates on every input: the fuelled embedding of
the cycle-detection traversal (the only general recursion in the engine)
never runs out of fuel, because the visited-set bookkeeping prevents
revisiting a task, so the whole pipeline always returns a finding list. -/
theorem claim_c8 (parseOk : String → Bool) (cs : List ClientData) (ws : List WorkerData)
    (ts : List TaskData) (rules : List BusinessRule) :
    (runValidationsO parseOk cs ws ts rules).isSome := by
  unfold runValidationsO
  obtain ⟨circ, hcirc⟩ := Option.isSome_iff_exists.mp (validateCircularCoRuns_isSome rules)
  rw [hcirc]
  rfl

/-! ## Claim C3: cycle detection -/

/-- A `hasCycle` call on a task that no other co-run rule mentions returns
false (after at most one step). -/
lemma hasCycleF_isolated (rs : List BusinessRule) (ruleId : String) (f : Nat)
    (t : String) (visited stack : List String)
    (hrel : relatedTasksOf rs ruleId t = []) (hstack : t ∉ stack) :
    ∃ v, hasCycleF rs ruleId (f + 1) t visited stack = some (false, v) := by
  rw [hasCycleF, if_neg hstack]
  by_cases h2 : t ∈ visited
  · rw [if_pos h2]
    exact ⟨visited, rfl⟩
  · rw [if_neg h2, hrel]
    exact ⟨visited ++ [t], by rw [goRelated]⟩

lemma scanRuleTasks_no_related (rs : List BusinessRule) (rule : BusinessRule) :
    ∀ (tids visited : List String), (∀ t ∈ tids, relatedTasksOf rs rule.id t = []) →
      scanRuleTasks rs rule tids visited = some [] := by
  intro tids
  induction tids with
  | nil => intro visited _; rw [scanRuleTasks]
  | cons t rest ih =>
    intro visited hrel
    have hfuel : cycleFuel rs = (cycleUniverse rs).length + 1 := rfl
    obtain ⟨v, hv⟩ := hasCycleF_isolated rs rule.id (cycleUniverse rs).length t visited []
      (hrel t (List.mem_cons_self t rest)) (List.not_mem_nil t)
    rw [scanRuleTasks, hfuel, hv]
    exact ih v (fun u hu => hrel u (List.mem_cons_of_mem t hu))

lemma circularGo_of_empty_scans (rs : List BusinessRule) :
    ∀ (rules : List BusinessRule),
      (∀ rule ∈ rules, scanRuleTasks rs rule (coRunTasksOf rule) [] = some []) →
      circularGo rs rules = some [] := by
  intro rules
  induction rules with
  | nil => intro _; rfl
  | cons rule rest ih =>
    intro h
    rw [circularGo, h rule (List.mem_cons_self rule rest),
      ih (fun r hr => h r (List.mem_cons_of_mem rule hr))]
    rfl

lemma scanRuleTasks_length_le (rs : List BusinessRule) (rule : BusinessRule) :
    ∀ (tids visited : List String) (l : List ValidationError),
      scanRuleTasks rs rule tids visited = some l → l.length ≤ 1 := by
  intro tids
  induction tids with
  | nil =>
    intro visited l h
    rw [scanRuleTasks] at h
    cases h
    simp
  | cons t rest ih =>
    intro visited l h
    rw [scanRuleTasks] at h
    rcases hres : hasCycleF rs rule.id (cycleFuel rs) t visited [] with _ | ⟨b, v⟩
    · rw [hres] at h; cases h
    · rw [hres] at h
      cases b with
      | true => cases h; simp
      | false => exact ih v l h

/-- The co-run rule grouping T1 with T2. -/
def cycleRuleA : BusinessRule :=
  { id := "A", type := "coRun", name := "rule A", description := ""
    parameters := { tasks := some ["T1", "T2"], taskId := none, allowedPhases := none }
    active := true }

/-- The co-run rule grouping T2 with T3. -/
def cycleRuleB : BusinessRule :=
  { id := "B", type := "coRun", name := "rule B", description := ""
    parameters := { tasks := some ["T2", "T3"], taskId := none, allowedPhases := none }
    active := true }

/-- The co-run rule grouping T3 with T1. -/
def cycleRuleC : BusinessRule :=
  { id := "C", type := "coRun", name := "rule C", description := ""
    parameters := { tasks := some ["T3", "T1"], taskId := none, allowedPhases := none }
    active := true }

/-- C3: the rule set grouping T1-T2, T2-T3 and T3-T1 produces at least one
cycle error finding; a rule set in which no task is shared by two co-run
rules with distinct ids produces none; and each co-run rule contributes at
most one cycle finding, because its task scan stops at the first task for
which a cycle is detected. -/
theorem claim_c3 :
    (1 ≤ ((validateCircularCoRuns [cycleRuleA, cycleRuleB, cycleRuleC]).getD []).length) ∧
    (∀ rules : List BusinessRule,
      (∀ r1 ∈ rules.filter (fun r => r.type = "coRun"),
       ∀ r2 ∈ rules.filter (fun r => r.type = "coRun"),
        r1.id ≠ r2.id → ∀ t ∈ coRunTasksOf r1, t ∉ coRunTasksOf r2) →
      validateCircularCoRuns rules = some []) ∧
    (∀ (rs : List BusinessRule) (rule : BusinessRule) (tids visited : List String)
        (l : List ValidationError),
      scanRuleTasks rs rule tids visited = some l → l.length ≤ 1) := by
  refine ⟨by decide, ?_, scanRuleTasks_length_le⟩
  intro rules hdisj
  unfold validateCircularCoRuns
  refine circularGo_of_empty_scans _ _ (fun rule hrule => ?_)
  refine scanRuleTasks_no_related _ _ _ _ (fun t ht => ?_)
  unfold relatedTasksOf
  have hfilter : (rules.filter (fun r => r.type = "coRun")).filter
      (fun r => decide (r.id ≠ rule.id ∧ t ∈ coRunTasksOf r)) = [] := by
    refine List.filter_eq_nil_iff.mpr (fun r hr hpred => ?_)
    simp only [decide_eq_true_eq] at hpred
    exact hdisj rule hrule r hr (fun h => hpred.1 h.symm) t ht hpred.2
  rw [hfilter]
  rfl

/-- C3 witness: the no-overlap half of the theorem applied to a concrete
two-rule set with disjoint task lists (no findings), and the per-rule bound
applied to a concrete scan. -/
theorem claim_c3_witness :
    validateCircularCoRuns
      [cycleRuleA,
       { id := "D", type := "coRun", name := "rule D", description := ""
         parameters := { tasks := some ["T7", "T8"], taskId := none, allowedPhases := none }
         active := true }] = some [] :=
  claim_c3.2.1 _ (by decide)

/-! ## Claim C1: phase-window conflicts for co-run rules -/

lemma jsMapSet_set_same {κ α : Type} [DecidableEq κ] (m : List (κ × α)) (k : κ) (v w : α) :
    jsMapSet (jsMapSet m k v) k w = jsMapSet m k w := by
  induction m with
  | nil => simp [jsMapSet]
  | cons kv rest ih =>
    by_cases hk : kv.1 = k
    · simp [jsMapSet, hk]
    · simp [jsMapSet, hk, ih]

lemma jsMapSet_of_value_eq {κ α : Type} [DecidableEq κ] :
    ∀ (m : List (κ × α)) (k : κ) (v : α), k ∈ mapKeys m →
      (∀ kv ∈ m, kv.1 = k → kv.2 = v) → jsMapSet m k v = m := by
  intro m
  induction m with
  | nil => intro k v hk _; simp [mapKeys] at hk
  | cons kv rest ih =>
    intro k v hk hval
    by_cases h1 : kv.1 = k
    · have hv : kv.2 = v := hval kv (List.mem_cons_self kv rest) h1
      have hstep : jsMapSet (kv :: rest) k v = (k, v) :: rest := by
        cases kv
        simp_all [jsMapSet]
      rw [hstep, ← hv, ← h1, Prod.mk.eta]
    · have hk' : k ∈ mapKeys rest := by
        simp only [mapKeys, List.map_cons, List.mem_cons] at hk
        exact hk.resolve_left (fun h => h1 h.symm)
      simp [jsMapSet, h1, ih k v hk' (fun kv' h' he => hval kv' (List.mem_cons_of_mem kv h') he)]

lemma jsMapSet_of_not_mem_keys {κ α : Type} [DecidableEq κ] :
    ∀ (m : List (κ × α)) (k : κ) (v : α), k ∉ mapKeys m →
      jsMapSet m k v = m ++ [(k, v)] := by
  intro m
  induction m with
  | nil => intro k v _; rfl
  | cons kv rest ih =>
    intro k v hk
    simp only [mapKeys, List.map_cons, List.mem_cons] at hk
    push_neg at hk
    have h1 : ¬ kv.1 = k := fun h => hk.1 h.symm
    simp [jsMapSet, h1, ih k v (by simpa [mapKeys] using hk.2)]

/-- Resolution of one member task's allowed-phase set as the engine
determines it: the first explicit phase-window rule for the task wins;
otherwise the task's own preferred-phase list when the task exists in the
task collection; otherwise the task contributes no set at all. -/
def resolvePhaseSet (pwRules : List BusinessRule) (ts : List TaskData)
    (taskId : String) : Option (List Int) :=
  match pwRules.find? (fun r => r.parameters.taskId = some taskId) with
  | some r => some (r.parameters.allowedPhases.getD [])
  | none => (ts.find? (fun t => t.TaskID = taskId)).map (fun t => t.PreferredPhases)

/-- The resolved entries of a co-run rule's member list, one per distinct
member task with a resolved set, in first-occurrence order. -/
def resolvedEntries (pwRules : List BusinessRule) (ts : List TaskData)
    (seen : List String) : List String → List (String × List Int)
  | [] => []
  | t :: rest =>
      if t ∈ seen then resolvedEntries pwRules ts seen rest
      else
        match resolvePhaseSet pwRules ts t with
        | none => resolvedEntries pwRules ts seen rest
        | some v => (t, v) :: resolvedEntries pwRules ts (seen ++ [t]) rest

lemma windowStep_eq (pwRules : List BusinessRule) (ts : List TaskData)
    (m : List (String × List Int)) (t : String) :
    windowStep pwRules ts m t =
      match resolvePhaseSet pwRules ts t with
      | none => m
      | some v => jsMapSet m t v := by
  unfold windowStep resolvePhaseSet
  cases hpw : pwRules.find? (fun r => r.parameters.taskId = some t) with
  | some r =>
    cases hts : ts.find? (fun task => task.TaskID = t) with
    | some task => simp [jsMapSet_set_same]
    | none => simp
  | none =>
    cases hts : ts.find? (fun task => task.TaskID = t) with
    | some task => simp
    | none => simp

lemma windowStep_none (pwRules : List BusinessRule) (ts : List TaskData)
    (m : List (String × List Int)) (t : String)
    (h : resolvePhaseSet pwRules ts t = none) : windowStep pwRules ts m t = m := by
  rw [windowStep_eq, h]

lemma windowStep_some (pwRules : List BusinessRule) (ts : List TaskData)
    (m : List (String × List Int)) (t : String) (v : List Int)
    (h : resolvePhaseSet pwRules ts t = some v) :
    windowStep pwRules ts m t = jsMapSet m t v := by
  rw [windowStep_eq, h]

lemma foldl_windowStep (pwRules : List BusinessRule) (ts : List TaskData) :
    ∀ (tids : List String) (m : List (String × List Int)),
      (∀ kv ∈ m, resolvePhaseSet pwRules ts kv.1 = some kv.2) →
      tids.foldl (windowStep pwRules ts) m =
        m ++ resolvedEntries pwRules ts (mapKeys m) tids := by
  intro tids
  induction tids with
  | nil => intro m _; simp [resolvedEntries]
  | cons t rest ih =>
    intro m hcons
    cases hres : resolvePhaseSet pwRules ts t with
    | none =>
      rw [List.foldl_cons, windowStep_none pwRules ts m t hres, ih m hcons]
      by_cases ht : t ∈ mapKeys m <;> simp [resolvedEntries, ht, hres]
    | some v =>
      rw [List.foldl_cons, windowStep_some pwRules ts m t v hres]
      by_cases ht : t ∈ mapKeys m
      · have hset : jsMapSet m t v = m := by
          refine jsMapSet_of_value_eq m t v ht (fun kv hkv he => ?_)
          have := hcons kv hkv
          rw [he, hres] at this
          exact (Option.some.injEq _ _).mp this.symm
        rw [hset, ih m hcons]
        simp [resolvedEntries, ht]
      · rw [jsMapSet_of_not_mem_keys m t v ht]
        have hcons' : ∀ kv ∈ m ++ [(t, v)], resolvePhaseSet pwRules ts kv.1 = some kv.2 := by
          intro kv hkv
          rcases List.mem_append.mp hkv with h | h
          · exact hcons kv h
          · simp only [List.mem_singleton] at h
            rw [h, hres]
        rw [ih (m ++ [(t, v)]) hcons']
        simp only [mapKeys] at ht
        simp [resolvedEntries, ht, hres, mapKeys]

/-- The engine's `taskPhaseWindows` map is exactly the resolved entries of
the member list. -/
lemma taskPhaseWindows_eq (pwRules : List BusinessRule) (ts : List TaskData)
    (tids : List String) :
    taskPhaseWindows pwRules ts tids = resolvedEntries pwRules ts [] tids := by
  have := foldl_windowStep pwRules ts tids [] (by intro kv h; cases h)
  simpa [taskPhaseWindows, mapKeys] using this

/-- The resolved phase sets of a co-run rule's distinct member tasks. -/
def memberPhaseSets (pwRules : List BusinessRule) (ts : List TaskData)
    (rule : BusinessRule) : List (List Int) :=
  (resolvedEntries pwRules ts [] (coRunTasksOf rule)).map (fun kv => kv.2)

/-- The co-run rule over T1 and T2 used in the concrete C1 scenarios. -/
def conflictRuleR : BusinessRule :=
  { id := "R", type := "coRun", name := "rule R", description := ""
    parameters := { tasks := some ["T1", "T2"], taskId := none, allowedPhases := none }
    active := true }

/-- A phase-window rule restricting T2 to phase 3. -/
def windowRule3 : BusinessRule :=
  { id := "W", type := "phaseWindow", name := "window", description := ""
    parameters := { tasks := none, taskId := some "T2", allowedPhases := some [3] }
    active := true }

/-- A phase-window rule restricting T2 to phases 2 and 3. -/
def windowRule23 : BusinessRule :=
  { id := "W", type := "phaseWindow", name := "window", description := ""
    parameters := { tasks := none, taskId := some "T2", allowedPhases := some [2, 3] }
    active := true }

/-- T1 with preferred phases 1 and 2. -/
def windowTask1 : TaskData :=
  { TaskID := "T1", TaskName := "t1", Duration := 1, RequiredSkills := ["s"]
    PreferredPhases := [1, 2], MaxConcurrent := 1 }

/-- T2 with preferred phases 5 (overridden by the window rules). -/
def windowTask2 : TaskData :=
  { TaskID := "T2", TaskName := "t2", Duration := 1, RequiredSkills := ["s"]
    PreferredPhases := [5], MaxConcurrent := 1 }

/-- T1 with an empty preferred-phase list (for the counterexample). -/
def emptyPhasesTask1 : TaskData :=
  { TaskID := "T1", TaskName := "t1", Duration := 1, RequiredSkills := ["s"]
    PreferredPhases := [], MaxConcurrent := 1 }

/-- T2 with preferred phase 1 (for the counterexample). -/
def phase1Task2 : TaskData :=
  { TaskID := "T2", TaskName := "t2", Duration := 1, RequiredSkills := ["s"]
    PreferredPhases := [1], MaxConcurrent := 1 }

/-- C1 counterexample: with no phase-window rules at all, a co-run over T1
(whose PreferredPhases list is empty) and T2 (restricted to phase 1), the
engine emits a conflict finding — the empty preferred-phase list of a task
present in the task collection resolves to the empty set and empties the
intersection by itself, where the claim says such a task is unrestricted and
predicts no finding. -/
theorem claim_c1_cex :
    ([conflictRuleR].filter (fun r => r.type = "phaseWindow") = []) ∧
    emptyPhasesTask1.PreferredPhases = [] ∧
    phase1Task2.PreferredPhases = [1] ∧
    validateRuleConflicts [conflictRuleR] [emptyPhasesTask1, phase1Task2] =
      [conflictFinding conflictRuleR] := by
  decide

/-- C1 as amended: for every co-run rule the engine resolves each member
task's phase set by explicit window first, the task's own PreferredPhases
list (empty included) when the task exists, and no set at all otherwise;
it emits exactly one conflict finding for the rule, listing all member
tasks, precisely when at least two member tasks carry resolved sets and the
left-fold intersection of those sets is empty.  The two spec scenarios
hold: window {3} against preferred {1,2} yields exactly one finding, window
{2,3} yields none. -/
theorem claim_c1 :
    (∀ (businessRules : List BusinessRule) (ts : List TaskData),
      validateRuleConflicts businessRules ts =
        ((businessRules.filter (fun r => r.type = "coRun")).map (fun rule =>
          if 1 < (memberPhaseSets (businessRules.filter (fun r => r.type = "phaseWindow")) ts rule).length ∧
             jsIntersectAll (memberPhaseSets (businessRules.filter (fun r => r.type = "phaseWindow")) ts rule) = []
          then [conflictFinding rule] else [])).flatten) ∧
    (validateRuleConflicts [conflictRuleR, windowRule3] [windowTask1, windowTask2] =
      [conflictFinding conflictRuleR]) ∧
    (validateRuleConflicts [conflictRuleR, windowRule23] [windowTask1, windowTask2] = []) := by
  refine ⟨?_, by decide, by decide⟩
  intro businessRules ts
  unfold validateRuleConflicts
  dsimp only
  congr 1
  refine List.map_congr_left (fun rule _ => ?_)
  unfold ruleConflictPerRule
  rw [taskPhaseWindows_eq]
  have harr : (resolvedEntries (businessRules.filter (fun r => r.type = "phaseWindow")) ts []
      (coRunTasksOf rule)).map (fun kv => kv.2) =
      memberPhaseSets (businessRules.filter (fun r => r.type = "phaseWindow")) ts rule := rfl
  rw [harr]
  by_cases h1 : 1 < (memberPhaseSets (businessRules.filter (fun r => r.type = "phaseWindow")) ts rule).length
  · by_cases h2 : jsIntersectAll (memberPhaseSets (businessRules.filter (fun r => r.type = "phaseWindow")) ts rule) = [] <;>
      simp [h1, h2]
  · simp [h1]

/-! ## Claim C4: phase-slot saturation -/

lemma jsMapGet_cons {κ α : Type} [DecidableEq κ] (kv : κ × α) (rest : List (κ × α)) (q : κ) :
    jsMapGet (kv :: rest) q = if kv.1 = q then some kv.2 else jsMapGet rest q := by
  by_cases h : kv.1 = q
  · rw [if_pos h]
    unfold jsMapGet
    rw [List.find?_cons_of_pos _ (by simpa using h)]
    rfl
  · rw [if_neg h]
    unfold jsMapGet
    rw [List.find?_cons_of_neg _ (by simpa using h)]

lemma jsMapGet_set {κ α : Type} [DecidableEq κ] :
    ∀ (m : List (κ × α)) (k : κ) (v : α) (q : κ),
      jsMapGet (jsMapSet m k v) q = if q = k then some v else jsMapGet m q := by
  intro m
  induction m with
  | nil =>
    intro k v q
    by_cases hq : q = k
    · simp [jsMapSet, jsMapGet_cons, hq]
    · have hkq : ¬ k = q := fun h => hq (Eq.symm h)
      simp [jsMapSet, jsMapGet_cons, hq, hkq, jsMapGet]
  | cons kv rest ih =>
    intro k v q
    by_cases h1 : kv.1 = k
    · rw [show jsMapSet (kv :: rest) k v = (k, v) :: rest by simp [jsMapSet, h1]]
      by_cases hq : q = k
      · simp [jsMapGet_cons, hq]
      · rw [jsMapGet_cons, if_neg (fun h => hq (Eq.symm h)), if_neg hq, jsMapGet_cons,
          if_neg (fun h => hq (by rw [← h, h1]))]
    · rw [show jsMapSet (kv :: rest) k v = kv :: jsMapSet rest k v by simp [jsMapSet, h1]]
      rw [jsMapGet_cons]
      by_cases h2 : kv.1 = q
      · have hqk : ¬ q = k := fun h => h1 (by rw [h2, h])
        rw [if_pos h2, if_neg hqk, jsMapGet_cons, if_pos h2]
      · rw [if_neg h2, ih, jsMapGet_cons, if_neg h2]

lemma mapKeys_set {κ α : Type} [DecidableEq κ] :
    ∀ (m : List (κ × α)) (k : κ) (v : α),
      mapKeys (jsMapSet m k v) =
        if k ∈ mapKeys m then mapKeys m else mapKeys m ++ [k] := by
  intro m
  induction m with
  | nil => intro k v; simp [jsMapSet, mapKeys]
  | cons kv rest ih =>
    intro k v
    by_cases h1 : kv.1 = k
    · simp [jsMapSet, mapKeys, h1]
    · have h1' : ¬ k = kv.1 := fun h => h1 h.symm
      rw [show jsMapSet (kv :: rest) k v = kv :: jsMapSet rest k v by simp [jsMapSet, h1]]
      rw [show mapKeys (kv :: jsMapSet rest k v) = kv.1 :: mapKeys (jsMapSet rest k v) from rfl]
      rw [ih k v, show mapKeys (kv :: rest) = kv.1 :: mapKeys rest from rfl]
      by_cases hk : k ∈ mapKeys rest
      · rw [if_pos hk, if_pos (List.mem_cons_of_mem _ hk)]
      · rw [if_neg hk, if_neg (by simp [h1', hk])]
        rfl

/-- Accumulating a list of (phase, delta) contributions into a JS map. -/
def bumpAll (m : List (Int × Int)) (contribs : List (Int × Int)) : List (Int × Int) :=
  contribs.foldl (fun m' pd => bumpPhase m' pd.1 pd.2) m

lemma bumpAll_append (m : List (Int × Int)) (l1 l2 : List (Int × Int)) :
    bumpAll m (l1 ++ l2) = bumpAll (bumpAll m l1) l2 := by
  simp [bumpAll, List.foldl_append]

lemma bumpAll_get :
    ∀ (contribs : List (Int × Int)) (m : List (Int × Int)) (q : Int),
      (jsMapGet (bumpAll m contribs) q).getD 0 =
        (jsMapGet m q).getD 0 +
          ((contribs.filter (fun pd => pd.1 = q)).map (fun pd => pd.2)).sum := by
  intro contribs
  induction contribs with
  | nil => intro m q; simp [bumpAll]
  | cons pd rest ih =>
    intro m q
    have hstep : bumpAll m (pd :: rest) = bumpAll (bumpPhase m pd.1 pd.2) rest := rfl
    rw [hstep, ih]
    have hget : (jsMapGet (bumpPhase m pd.1 pd.2) q).getD 0 =
        if q = pd.1 then (jsMapGet m pd.1).getD 0 + pd.2 else (jsMapGet m q).getD 0 := by
      unfold bumpPhase
      rw [jsMapGet_set]
      by_cases hq : q = pd.1 <;> simp [hq]
    rw [hget]
    by_cases hq : q = pd.1
    · rw [if_pos hq]
      have : pd.1 = q := hq.symm
      simp [List.filter_cons, this]
      omega
    · rw [if_neg hq]
      have : ¬ pd.1 = q := fun h => hq h.symm
      simp [List.filter_cons, this]

lemma jsSetDedupAux_congr {α : Type} [DecidableEq α] :
    ∀ (l s1 s2 : List α), (∀ x, x ∈ s1 ↔ x ∈ s2) →
      jsSetDedupAux s1 l = jsSetDedupAux s2 l := by
  intro l
  induction l with
  | nil => intro s1 s2 _; rfl
  | cons x xs ih =>
    intro s1 s2 h
    by_cases hx : x ∈ s1
    · rw [jsSetDedupAux, if_pos hx, jsSetDedupAux, if_pos ((h x).mp hx), ih s1 s2 h]
    · rw [jsSetDedupAux, if_neg hx, jsSetDedupAux, if_neg (fun hm => hx ((h x).mpr hm))]
      rw [ih (x :: s1) (x :: s2) (fun y => by simp [h y])]

lemma bumpAll_keys :
    ∀ (contribs : List (Int × Int)) (m : List (Int × Int)),
      mapKeys (bumpAll m contribs) =
        mapKeys m ++ jsSetDedupAux (mapKeys m) (contribs.map (fun pd => pd.1)) := by
  intro contribs
  induction contribs with
  | nil => intro m; simp [bumpAll, jsSetDedupAux]
  | cons pd rest ih =>
    intro m
    have hstep : bumpAll m (pd :: rest) = bumpAll (bumpPhase m pd.1 pd.2) rest := rfl
    rw [hstep, ih]
    unfold bumpPhase
    rw [mapKeys_set]
    by_cases hk : pd.1 ∈ mapKeys m
    · rw [if_pos hk]
      simp only [List.map_cons, jsSetDedupAux, if_pos hk]
    · rw [if_neg hk]
      simp only [List.map_cons, jsSetDedupAux, if_neg hk]
      rw [List.append_assoc]
      congr 1
      simp only [List.singleton_append]
      congr 1
      refine jsSetDedupAux_congr _ _ _ (fun y => ?_)
      simp [List.mem_append, or_comm]

lemma assoc_entries_eq {κ α : Type} [DecidableEq κ] (d : α) :
    ∀ (m : List (κ × α)), (mapKeys m).Nodup →
      m = (mapKeys m).map (fun k => (k, (jsMapGet m k).getD d)) := by
  intro m
  induction m with
  | nil => intro _; rfl
  | cons kv rest ih =>
    intro hnd
    simp only [mapKeys, List.map_cons] at hnd ⊢
    obtain ⟨hk, hnd'⟩ := List.nodup_cons.mp hnd
    have hget1 : jsMapGet (kv :: rest) kv.1 = some kv.2 := by
      rw [jsMapGet_cons, if_pos rfl]
    rw [hget1]
    simp only [Option.getD_some, Prod.mk.eta]
    have hcong : (List.map (fun kv => kv.1) rest).map
        (fun k => (k, (jsMapGet (kv :: rest) k).getD d)) =
        (List.map (fun kv => kv.1) rest).map
        (fun k => (k, (jsMapGet rest k).getD d)) := by
      refine List.map_congr_left (fun k hkmem => ?_)
      have hkne : ¬ kv.1 = k := fun h => hk (h ▸ hkmem)
      rw [jsMapGet_cons, if_neg hkne]
    rw [hcong]
    have hih := ih hnd'
    simp only [mapKeys] at hih
    exact congrArg (fun l => kv :: l) hih

/-- The flattened (phase, delta) contribution stream of a collection. -/
def phaseContribs {α : Type} (phasesOf : α → List Int) (deltaOf : α → Int)
    (items : List α) : List (Int × Int) :=
  items.flatMap (fun a => (phasesOf a).map (fun p => (p, deltaOf a)))

lemma nested_foldl_eq_bumpAll {α : Type} (phasesOf : α → List Int) (deltaOf : α → Int) :
    ∀ (items : List α) (m : List (Int × Int)),
      items.foldl (fun m' a => (phasesOf a).foldl
        (fun m'' p => bumpPhase m'' p (deltaOf a)) m') m =
      bumpAll m (phaseContribs phasesOf deltaOf items) := by
  have hinner : ∀ (a : α) (m : List (Int × Int)),
      (phasesOf a).foldl (fun m'' p => bumpPhase m'' p (deltaOf a)) m =
        bumpAll m ((phasesOf a).map (fun p => (p, deltaOf a))) := by
    intro a m
    generalize phasesOf a = ps
    induction ps generalizing m with
    | nil => rfl
    | cons p rest ih => simp only [List.foldl_cons, List.map_cons, bumpAll] at ih ⊢; rw [ih]
  intro items
  induction items with
  | nil => intro m; rfl
  | cons a rest ih =>
    intro m
    simp only [List.foldl_cons, phaseContribs, List.flatMap_cons]
    rw [hinner a m, ih, bumpAll_append]
    rfl

lemma contribs_filter_sum {α : Type} (phasesOf : α → List Int) (deltaOf : α → Int) (q : Int) :
    ∀ (items : List α),
      (((phaseContribs phasesOf deltaOf items).filter (fun pd => pd.1 = q)).map
        (fun pd => pd.2)).sum =
      (items.map (fun a => (((phasesOf a).count q : Int)) * deltaOf a)).sum := by
  intro items
  induction items with
  | nil => rfl
  | cons a rest ih =>
    simp only [phaseContribs, List.flatMap_cons, List.filter_append, List.map_append,
      List.sum_append, List.map_cons, List.sum_cons] at ih ⊢
    rw [ih]
    congr 1
    rw [List.map_filter]
    have hcomp : ((phasesOf a).filter
        ((fun (pd : Int × Int) => decide (pd.1 = q)) ∘ (fun p => (p, deltaOf a)))) =
        (phasesOf a).filter (fun p => decide (p = q)) := rfl
    rw [hcomp, List.map_map]
    have hconst : ((phasesOf a).filter (fun p => decide (p = q))).map
        ((fun pd => pd.2) ∘ (fun p => ((p : Int), deltaOf a))) =
        List.replicate ((phasesOf a).filter (fun p => decide (p = q))).length (deltaOf a) := by
      generalize (phasesOf a).filter (fun p => decide (p = q)) = l
      induction l with
      | nil => rfl
      | cons _ _ ih' => simp [List.replicate_succ, ih']
    rw [hconst, List.sum_replicate, nsmul_eq_mul]
    congr 2
    simp [List.count, List.countP_eq_length_filter]
    congr 1

/-- available(p), occurrence-weighted as the amended claim states it: each
occurrence of `p` in a worker's slot list contributes that worker's
`MaxLoadPerPhase`. -/
def specAvailable (ws : List WorkerData) (p : Int) : Int :=
  (ws.map (fun w => ((w.AvailableSlots.count p : Int)) * w.MaxLoadPerPhase)).sum

/-- required(p), occurrence-weighted: each occurrence of `p` in a task's
effective phase list contributes that task's `Duration`. -/
def specRequired (ts : List TaskData) (p : Int) : Int :=
  (ts.map (fun t => (((effectivePhases t).count p : Int)) * t.Duration)).sum

/-- The distinct phases mentioned by the tasks' effective phase lists, in
first-occurrence order: the key order of `phaseRequirements`. -/
def taskPhaseOrder (ts : List TaskData) : List Int :=
  jsSetDedup ((ts.map effectivePhases).flatten)

lemma phaseSlots_eq_bumpAll (ws : List WorkerData) :
    phaseSlots ws =
      bumpAll [] (phaseContribs (fun w => w.AvailableSlots) (fun w => w.MaxLoadPerPhase) ws) :=
  nested_foldl_eq_bumpAll _ _ ws []

lemma phaseRequirements_eq_bumpAll (ts : List TaskData) :
    phaseRequirements ts =
      bumpAll [] (phaseContribs effectivePhases (fun t => t.Duration) ts) :=
  nested_foldl_eq_bumpAll _ _ ts []

lemma phaseSlots_get (ws : List WorkerData) (q : Int) :
    (jsMapGet (phaseSlots ws) q).getD 0 = specAvailable ws q := by
  rw [phaseSlots_eq_bumpAll, bumpAll_get, contribs_filter_sum]
  simp [jsMapGet, specAvailable]

lemma phaseRequirements_get (ts : List TaskData) (q : Int) :
    (jsMapGet (phaseRequirements ts) q).getD 0 = specRequired ts q := by
  rw [phaseRequirements_eq_bumpAll, bumpAll_get, contribs_filter_sum]
  simp [jsMapGet, specRequired]

lemma contribs_map_fst {α : Type} (phasesOf : α → List Int) (deltaOf : α → Int)
    (items : List α) :
    (phaseContribs phasesOf deltaOf items).map (fun pd => pd.1) =
      (items.map phasesOf).flatten := by
  induction items with
  | nil => rfl
  | cons a rest ih =>
    simp only [phaseContribs, List.flatMap_cons, List.map_append, List.map_cons,
      List.flatten_cons, List.map_map]
    refine congrArg₂ (fun a b => a ++ b) ?_ ?_
    · show (phasesOf a).map ((fun (pd : Int × Int) => pd.1) ∘ (fun p => (p, deltaOf a))) = phasesOf a
      have hcomp : ((fun (pd : Int × Int) => pd.1) ∘ (fun p => ((p : Int), deltaOf a))) = id := rfl
      rw [hcomp, List.map_id]
    · simpa [phaseContribs] using ih

lemma phaseRequirements_keys (ts : List TaskData) :
    mapKeys (phaseRequirements ts) = taskPhaseOrder ts := by
  rw [phaseRequirements_eq_bumpAll, bumpAll_keys]
  simp only [mapKeys, List.map_nil, List.nil_append]
  rw [show List.map (fun (pd : Int × Int) => pd.1)
      (phaseContribs effectivePhases (fun t => t.Duration) ts) =
      (phaseContribs effectivePhases (fun t => t.Duration) ts).map (fun pd => pd.1) from rfl,
    contribs_map_fst]
  rfl

/-- The requirements map lists each mentioned phase once, in first-occurrence
order, with its total occurrence-weighted required capacity. -/
lemma phaseRequirements_entries (ts : List TaskData) :
    phaseRequirements ts = (taskPhaseOrder ts).map (fun p => (p, specRequired ts p)) := by
  have hnd : (mapKeys (phaseRequirements ts)).Nodup := by
    rw [phaseRequirements_keys]
    exact nodup_jsSetDedup _
  have h := assoc_entries_eq 0 (phaseRequirements ts) hnd
  rw [phaseRequirements_keys] at h
  rw [h]
  refine List.map_congr_left (fun p _ => ?_)
  rw [phaseRequirements_get]

/-- The worker with duplicated slot entries for the C4 counterexample. -/
def dupSlotWorker : WorkerData :=
  { WorkerID := "W1", WorkerName := "w", Skills := ["s"]
    AvailableSlots := [1, 1], MaxLoadPerPhase := 2 }

/-- A task needing 3 slots of phase 1. -/
def smallTask : TaskData :=
  { TaskID := "T1", TaskName := "t", Duration := 3, RequiredSkills := ["s"]
    PreferredPhases := [1], MaxConcurrent := 1 }

/-- available(p) read literally from the claim: the sum of `MaxLoadPerPhase`
over all workers whose `AvailableSlots` contains p (each worker once). -/
def claimAvailable (ws : List WorkerData) (p : Int) : Int :=
  ((ws.filter (fun w => decide (p ∈ w.AvailableSlots))).map (fun w => w.MaxLoadPerPhase)).sum

/-- required(p) read literally from the claim: the sum of `Duration` over
all tasks whose effective phase list contains p (each task once). -/
def claimRequired (ts : List TaskData) (p : Int) : Int :=
  ((ts.filter (fun t => decide (p ∈ effectivePhases t))).map (fun t => t.Duration)).sum

/-- C4 counterexample: a worker listing phase 1 twice in `AvailableSlots`
counts its `MaxLoadPerPhase` twice, so with the claim's sums required(1)=3
exceeds available(1)=2 and the claim demands a warning, yet the engine
(which computes available(1)=4) emits none. -/
theorem claim_c4_cex :
    claimRequired [smallTask] 1 = 3 ∧
    claimAvailable [dupSlotWorker] 1 = 2 ∧
    claimRequired [smallTask] 1 > claimAvailable [dupSlotWorker] 1 ∧
    validatePhaseSlotSaturation [dupSlotWorker] [smallTask] = [] := by
  decide

/-- First worker of the spec's saturation example. -/
def satWorker1 : WorkerData :=
  { WorkerID := "W1", WorkerName := "w1", Skills := ["s"]
    AvailableSlots := [1], MaxLoadPerPhase := 2 }

/-- Second worker of the spec's saturation example. -/
def satWorker2 : WorkerData :=
  { WorkerID := "W2", WorkerName := "w2", Skills := ["s"]
    AvailableSlots := [1], MaxLoadPerPhase := 2 }

/-- The task of the spec's saturation example. -/
def satTask : TaskData :=
  { TaskID := "T1", TaskName := "t", Duration := 5, RequiredSkills := ["s"]
    PreferredPhases := [1], MaxConcurrent := 1 }

/-- C4 as amended: for every phase p mentioned by some task's effective
phase list (a task with no preferred phases counting entirely toward phase
1), exactly one saturation warning reporting required(p) and available(p)
is emitted precisely when required(p) > available(p), where both totals
weight each phase occurrence separately; phases never mentioned by a task
get no warning.  The spec's arithmetic example produces the phase-1 warning
citing required 5 and available 4. -/
theorem claim_c4 :
    (∀ (ws : List WorkerData) (ts : List TaskData),
      validatePhaseSlotSaturation ws ts =
        (taskPhaseOrder ts).filterMap (fun p =>
          if specRequired ts p > specAvailable ws p
          then some (saturationFinding p (specRequired ts p) (specAvailable ws p))
          else none)) ∧
    (∀ ts : List TaskData, (taskPhaseOrder ts).Nodup) ∧
    (∀ (ts : List TaskData) (p : Int),
      p ∈ taskPhaseOrder ts ↔ ∃ t ∈ ts, p ∈ effectivePhases t) ∧
    (validatePhaseSlotSaturation [satWorker1, satWorker2] [satTask] =
      [saturationFinding 1 5 4]) := by
  refine ⟨?_, fun ts => nodup_jsSetDedup _, ?_, by decide⟩
  · intro ws ts
    unfold validatePhaseSlotSaturation
    dsimp only
    rw [phaseRequirements_entries, List.filterMap_map]
    refine List.filterMap_congr (fun p _ => ?_)
    simp only [Function.comp_apply, phaseSlots_get]
  · intro ts p
    simp only [taskPhaseOrder, mem_jsSetDedup, List.mem_flatten, List.mem_map]
    constructor
    · rintro ⟨l, ⟨t, ht, rfl⟩, hp⟩
      exact ⟨t, ht, hp⟩
    · rintro ⟨t, ht, hp⟩
      exact ⟨effectivePhases t, ⟨t, ht, rfl⟩, hp⟩

/-! ## Claims C5 and C10: max-concurrency feasibility -/

/-- The number of qualified workers, worded as the claim does: workers whose
skill set is a superset of the task's required skills. -/
def specQualifiedCount (ws : List WorkerData) (t : TaskData) : Nat :=
  (ws.filter (fun w => decide (∀ s ∈ t.RequiredSkills, s ∈ w.Skills))).length

/-- The number of qualified workers that additionally have at least one
available slot among the task's preferred phases. -/
def specAvailableCount (ws : List WorkerData) (t : TaskData) : Nat :=
  (ws.filter (fun w => decide ((∀ s ∈ t.RequiredSkills, s ∈ w.Skills) ∧
    ∃ p ∈ w.AvailableSlots, p ∈ t.PreferredPhases))).length

lemma qualifiedWorkers_eq (ws : List WorkerData) (t : TaskData) :
    qualifiedWorkers ws t =
      ws.filter (fun w => decide (∀ s ∈ t.RequiredSkills, s ∈ w.Skills)) := by
  unfold qualifiedWorkers
  refine List.filter_congr (fun w _ => ?_)
  have hiff : (t.RequiredSkills.all fun s => decide (s ∈ w.Skills)) = true ↔
      ∀ s ∈ t.RequiredSkills, s ∈ w.Skills := by simp [List.all_eq_true]
  by_cases h : ∀ s ∈ t.RequiredSkills, s ∈ w.Skills
  · rw [hiff.mpr h, decide_eq_true h]
  · rw [decide_eq_false h, Bool.eq_false_iff]
    exact fun hh => h (hiff.mp hh)

lemma availableQualifiedWorkers_eq (ws : List WorkerData) (t : TaskData) :
    availableQualifiedWorkers ws t =
      ws.filter (fun w => decide ((∀ s ∈ t.RequiredSkills, s ∈ w.Skills) ∧
        ∃ p ∈ w.AvailableSlots, p ∈ t.PreferredPhases)) := by
  unfold availableQualifiedWorkers
  rw [qualifiedWorkers_eq, List.filter_filter]
  refine List.filter_congr (fun w _ => ?_)
  have hany : (w.AvailableSlots.any fun slot => decide (slot ∈ t.PreferredPhases)) = true ↔
      ∃ p ∈ w.AvailableSlots, p ∈ t.PreferredPhases := by simp [List.any_eq_true]
  by_cases h1 : ∀ s ∈ t.RequiredSkills, s ∈ w.Skills
  · rw [decide_eq_true h1]
    by_cases h2 : ∃ p ∈ w.AvailableSlots, p ∈ t.PreferredPhases
    · rw [hany.mpr h2, decide_eq_true ⟨h1, h2⟩]
      rfl
    · rw [decide_eq_false (fun hc => h2 hc.2), Bool.eq_false_iff]
      intro hh
      rw [Bool.and_eq_true] at hh
      exact h2 (hany.mp hh.1)
  · rw [decide_eq_false h1, decide_eq_false (fun hc => h1 hc.1), Bool.and_false]

/-- The task used by the C5 counterexample: empty preferred phases and
`MaxConcurrent` 1. -/
def emptyPhaseTask : TaskData :=
  { TaskID := "T", TaskName := "t", Duration := 1, RequiredSkills := []
    PreferredPhases := [], MaxConcurrent := 1 }

/-- C5 counterexample: with an empty worker pool, zero workers are
phase-qualified for `emptyPhaseTask` and `MaxConcurrent` (1) exceeds that
count, so the claim demands a second, phase-constrained warning; the engine
emits only the single qualified-worker warning because it skips the
phase-constrained comparison for a task whose preferred-phase list is
empty. -/
theorem claim_c5_cex :
    emptyPhaseTask.PreferredPhases = [] ∧
    (specAvailableCount [] emptyPhaseTask : Int) < emptyPhaseTask.MaxConcurrent ∧
    validateMaxConcurrencyFeasibility [] [emptyPhaseTask] =
      [infeasibleConcurrencyFinding emptyPhaseTask 0] := by
  decide

/-- The spec's concurrency example task: requires skill X, MaxConcurrent 3. -/
def skillXTask : TaskData :=
  { TaskID := "TX", TaskName := "t", Duration := 1, RequiredSkills := ["X"]
    PreferredPhases := [], MaxConcurrent := 3 }

/-- A worker with skill X. -/
def skillXWorker1 : WorkerData :=
  { WorkerID := "W1", WorkerName := "w1", Skills := ["X"]
    AvailableSlots := [1], MaxLoadPerPhase := 1 }

/-- Another worker with skill X (among others). -/
def skillXWorker2 : WorkerData :=
  { WorkerID := "W2", WorkerName := "w2", Skills := ["X", "Y"]
    AvailableSlots := [1], MaxLoadPerPhase := 1 }

/-- A worker without skill X. -/
def skillYWorker : WorkerData :=
  { WorkerID := "W3", WorkerName := "w3", Skills := ["Y"]
    AvailableSlots := [1], MaxLoadPerPhase := 1 }

/-- C5 as amended: for every task, the qualified-worker warning citing
`MaxConcurrent` and the qualified count is emitted iff `MaxConcurrent`
exceeds the number of workers whose skill set is a superset of the task's
required skills; the second, distinct phase-constrained warning is emitted
iff the task's preferred-phase list is non-empty and `MaxConcurrent`
exceeds the number of qualified workers with at least one slot among the
preferred phases.  The spec's example (skill X, MaxConcurrent 3, two
workers with X) produces exactly the one qualified-worker warning citing 3
and 2. -/
theorem claim_c5 :
    (∀ (ws : List WorkerData) (ts : List TaskData),
      validateMaxConcurrencyFeasibility ws ts = (ts.map (maxConcurrencyPerTask ws)).flatten) ∧
    (∀ (ws : List WorkerData) (t : TaskData),
      maxConcurrencyPerTask ws t =
        (if (specQualifiedCount ws t : Int) < t.MaxConcurrent
         then [infeasibleConcurrencyFinding t (specQualifiedCount ws t)] else []) ++
        (if t.PreferredPhases ≠ [] ∧ (specAvailableCount ws t : Int) < t.MaxConcurrent
         then [infeasiblePhaseConcurrencyFinding t (specAvailableCount ws t)] else [])) ∧
    (validateMaxConcurrencyFeasibility [skillXWorker1, skillXWorker2, skillYWorker] [skillXTask] =
      [infeasibleConcurrencyFinding skillXTask 2]) := by
  refine ⟨fun ws ts => rfl, ?_, by decide⟩
  intro ws t
  unfold maxConcurrencyPerTask
  rw [qualifiedWorkers_eq, availableQualifiedWorkers_eq]
  congr 1
  by_cases hp : t.PreferredPhases = []
  · simp [hp]
  · have hlen : 0 < t.PreferredPhases.length := List.length_pos.mpr hp
    simp only [hp, hlen, if_true, ne_eq, not_false_iff, true_and]
    rfl

/-- C10: for a task whose preferred-phase list is empty, the per-task body
of the concurrency check emits at most the qualified-worker warning and the
phase-constrained warning value never appears; the check over a task list
is the concatenation of the per-task bodies. -/
theorem claim_c10 (ws : List WorkerData) (ts : List TaskData) (t : TaskData)
    (ht : t.PreferredPhases = []) :
    (validateMaxConcurrencyFeasibility ws ts = (ts.map (maxConcurrencyPerTask ws)).flatten) ∧
    (maxConcurrencyPerTask ws t =
      if (qualifiedWorkers ws t).length < t.MaxConcurrent
      then [infeasibleConcurrencyFinding t (qualifiedWorkers ws t).length] else []) ∧
    (∀ n : Nat, infeasiblePhaseConcurrencyFinding t n ∉ maxConcurrencyPerTask ws t) := by
  have h2 : maxConcurrencyPerTask ws t =
      if (qualifiedWorkers ws t).length < t.MaxConcurrent
      then [infeasibleConcurrencyFinding t (qualifiedWorkers ws t).length] else [] := by
    unfold maxConcurrencyPerTask
    rw [ht]
    simp
  refine ⟨rfl, h2, fun n hmem => ?_⟩
  rw [h2] at hmem
  by_cases hc : (qualifiedWorkers ws t).length < t.MaxConcurrent
  · rw [if_pos hc] at hmem
    have heq := List.mem_singleton.mp hmem
    have := congrArg ValidationError.field heq
    simp [infeasiblePhaseConcurrencyFinding, infeasibleConcurrencyFinding] at this
  · rw [if_neg hc] at hmem
    exact List.not_mem_nil _ hmem

/-- C10 witness: the empty-phases task with no workers gets exactly the
qualified-worker warning and no phase-constrained warning. -/
theorem claim_c10_witness :
    emptyPhaseTask.PreferredPhases = [] ∧
    ((validateMaxConcurrencyFeasibility [] [emptyPhaseTask] =
        (([emptyPhaseTask] : List TaskData).map (maxConcurrencyPerTask [])).flatten) ∧
     (maxConcurrencyPerTask [] emptyPhaseTask =
       if (qualifiedWorkers [] emptyPhaseTask).length < emptyPhaseTask.MaxConcurrent
       then [infeasibleConcurrencyFinding emptyPhaseTask
               (qualifiedWorkers [] emptyPhaseTask).length] else []) ∧
     (∀ n : Nat, infeasiblePhaseConcurrencyFinding emptyPhaseTask n ∉
        maxConcurrencyPerTask [] emptyPhaseTask)) :=
  ⟨by decide, claim_c10 [] [emptyPhaseTask] emptyPhaseTask (by decide)⟩

/-! ## Claim C9: the engine never reads the `active` flag -/

/-- Normalise a rule's `active` flag; two rule lists are "identical except
in their active booleans" exactly when their images under this map are
equal. -/
def normActive (r : BusinessRule) : BusinessRule :=
  { r with active := true }

lemma filter_map_normActive (rules : List BusinessRule) (ty : String) :
    (rules.map normActive).filter (fun r => r.type = ty) =
      (rules.filter (fun r => r.type = ty)).map normActive := by
  rw [List.map_filter]
  rfl

lemma relatedTasksOf_normActive (rs : List BusinessRule) (ruleId taskId : String) :
    relatedTasksOf (rs.map normActive) ruleId taskId = relatedTasksOf rs ruleId taskId := by
  unfold relatedTasksOf
  rw [List.map_filter]
  rw [show ((fun r => decide (r.id ≠ ruleId ∧ taskId ∈ coRunTasksOf r)) ∘ normActive) =
    (fun r => decide (r.id ≠ ruleId ∧ taskId ∈ coRunTasksOf r)) from rfl]
  rw [List.map_map]
  rfl

lemma cycleUniverse_normActive (rs : List BusinessRule) :
    cycleUniverse (rs.map normActive) = cycleUniverse rs := by
  unfold cycleUniverse
  rw [List.map_map]
  rfl

lemma goRelated_congr (rec1 rec2 : String → List String → List String → Option (Bool × List String))
    (h : ∀ t v s, rec1 t v s = rec2 t v s) :
    ∀ (l : List String) (taskId : String) (v s : List String),
      goRelated rec1 l taskId v s = goRelated rec2 l taskId v s := by
  intro l
  induction l with
  | nil => intro taskId v s; rfl
  | cons t rest ih =>
    intro taskId v s
    rw [goRelated, goRelated]
    by_cases hteq : t = taskId
    · rw [if_pos hteq, if_pos hteq, ih]
    · rw [if_neg hteq, if_neg hteq, h t v s]
      cases rec2 t v s with
      | none => rfl
      | some bv =>
        obtain ⟨b, v'⟩ := bv
        cases b
        · exact ih taskId v' s
        · rfl

lemma hasCycleF_normActive (rs : List BusinessRule) (ruleId : String) :
    ∀ (fuel : Nat) (taskId : String) (v s : List String),
      hasCycleF (rs.map normActive) ruleId fuel taskId v s =
        hasCycleF rs ruleId fuel taskId v s := by
  intro fuel
  induction fuel with
  | zero => intro taskId v s; rfl
  | succ f ih =>
    intro taskId v s
    rw [hasCycleF, hasCycleF, relatedTasksOf_normActive]
    by_cases h1 : taskId ∈ s
    · rw [if_pos h1, if_pos h1]
    · rw [if_neg h1, if_neg h1]
      by_cases h2 : taskId ∈ v
      · rw [if_pos h2, if_pos h2]
      · rw [if_neg h2, if_neg h2]
        exact goRelated_congr _ _ ih _ _ _ _

lemma scanRuleTasks_normActive (rs : List BusinessRule) (rule : BusinessRule) :
    ∀ (tids visited : List String),
      scanRuleTasks (rs.map normActive) (normActive rule) tids visited =
        scanRuleTasks rs rule tids visited := by
  intro tids
  induction tids with
  | nil => intro visited; rfl
  | cons t rest ih =>
    intro visited
    rw [scanRuleTasks, scanRuleTasks]
    have hfuel : cycleFuel (rs.map normActive) = cycleFuel rs := by
      unfold cycleFuel
      rw [cycleUniverse_normActive]
    rw [hfuel, show (normActive rule).id = rule.id from rfl, hasCycleF_normActive]
    cases hasCycleF rs rule.id (cycleFuel rs) t visited [] with
    | none => rfl
    | some bv =>
      obtain ⟨b, v⟩ := bv
      cases b
      · exact ih v
      · rfl

lemma circularGo_normActive (rs : List BusinessRule) :
    ∀ (rules : List BusinessRule),
      circularGo (rs.map normActive) (rules.map normActive) = circularGo rs rules := by
  intro rules
  induction rules with
  | nil => rfl
  | cons rule rest ih =>
    rw [List.map_cons, circularGo, circularGo,
      show coRunTasksOf (normActive rule) = coRunTasksOf rule from rfl,
      scanRuleTasks_normActive, ih]

lemma validateCircularCoRuns_normActive (rules : List BusinessRule) :
    validateCircularCoRuns (rules.map normActive) = validateCircularCoRuns rules := by
  unfold validateCircularCoRuns
  rw [filter_map_normActive, circularGo_normActive]

lemma windowStep_normActive (pw : List BusinessRule) (ts : List TaskData)
    (m : List (String × List Int)) (t : String) :
    windowStep (pw.map normActive) ts m t = windowStep pw ts m t := by
  unfold windowStep
  rw [List.find?_map]
  rw [show ((fun r => decide (r.parameters.taskId = some t)) ∘ normActive) =
    (fun r => decide (r.parameters.taskId = some t)) from rfl]
  cases pw.find? (fun r => r.parameters.taskId = some t) <;> rfl

lemma validateRuleConflicts_normActive (rules : List BusinessRule) (ts : List TaskData) :
    validateRuleConflicts (rules.map normActive) ts = validateRuleConflicts rules ts := by
  unfold validateRuleConflicts
  dsimp only
  rw [filter_map_normActive, filter_map_normActive, List.map_map]
  refine congrArg List.flatten (List.map_congr_left (fun rule _ => ?_))
  show ruleConflictPerRule ((rules.filter (fun r => r.type = "phaseWindow")).map normActive)
      ts (normActive rule) = ruleConflictPerRule (rules.filter (fun r => r.type = "phaseWindow")) ts rule
  unfold ruleConflictPerRule
  have hwin : taskPhaseWindows ((rules.filter (fun r => r.type = "phaseWindow")).map normActive)
      ts (coRunTasksOf (normActive rule)) =
      taskPhaseWindows (rules.filter (fun r => r.type = "phaseWindow")) ts (coRunTasksOf rule) := by
    rw [show coRunTasksOf (normActive rule) = coRunTasksOf rule from rfl]
    unfold taskPhaseWindows
    generalize coRunTasksOf rule = tids
    induction tids using List.reverseRecOn with
    | nil => rfl
    | append_singleton rest t ih =>
      rw [List.foldl_append, List.foldl_append, ih]
      simp only [List.foldl_cons, List.foldl_nil, windowStep_normActive]
  rw [hwin, show conflictFinding (normActive rule) = conflictFinding rule from rfl]

/-- C9: flipping any rule's `active` flag never changes the engine's
output — two rule lists with equal images under `normActive` (identical
except in their active booleans) produce identical finding lists. -/
theorem claim_c9 (parseOk : String → Bool) (cs : List ClientData) (ws : List WorkerData)
    (ts : List TaskData) (rules1 rules2 : List BusinessRule)
    (h : rules1.map normActive = rules2.map normActive) :
    runValidations parseOk cs ws ts rules1 = runValidations parseOk cs ws ts rules2 := by
  have key : ∀ rules : List BusinessRule,
      runValidations parseOk cs ws ts (rules.map normActive) =
        runValidations parseOk cs ws ts rules := by
    intro rules
    unfold runValidations runValidationsO
    rw [validateCircularCoRuns_normActive, validateRuleConflicts_normActive]
  rw [← key rules1, ← key rules2, h]

/-- A rule marked active. -/
def activeRule : BusinessRule :=
  { id := "A", type := "coRun", name := "rule A", description := "d"
    parameters := { tasks := some ["T1", "T2"], taskId := none, allowedPhases := none }
    active := true }

/-- The same rule marked inactive. -/
def inactiveRule : BusinessRule :=
  { id := "A", type := "coRun", name := "rule A", description := "d"
    parameters := { tasks := some ["T1", "T2"], taskId := none, allowedPhases := none }
    active := false }

/-- C9 witness: flipping the `active` flag of one concrete rule leaves the
output unchanged. -/
theorem claim_c9_witness :
    ([activeRule].map normActive = [inactiveRule].map normActive) ∧
    runValidations (fun _ => true) [] [] [] [activeRule] =
      runValidations (fun _ => true) [] [] [] [inactiveRule] :=
  ⟨by decide, claim_c9 (fun _ => true) [] [] [] [activeRule] [inactiveRule] (by decide)⟩

/-! ## Claim C2: the engine on records with absent fields

The TypeScript interfaces declare every field, but at run time the engine
can receive records in which a field is simply absent (`undefined`) — the
claim explicitly ranges over such inputs.  This second embedding models
every engine-read field as optional and reproduces the JavaScript
semantics of reading them: falsy checks tolerate `undefined`, numeric
comparisons against `undefined` are false, but calling a method on an
absent list (`.some`, `.every`, `.length`, `for…of`, `.filter`,
`.includes`) raises a `TypeError` that aborts the whole pass. -/

/-- Why a validation pass can fail to return: a thrown `TypeError`, or (in
the fuelled model only) fuel exhaustion of the cycle scan, which claim C8
rules out. -/
inductive RunAbort where
  | typeError : RunAbort
  | fuelOut : RunAbort
deriving DecidableEq, Repr

/-- A client record as the runtime may deliver it. -/
structure ClientDataJs where
  ClientID : Option String
  ClientName : Option String
  PriorityLevel : Option Int
  RequestedTaskIDs : Option (List String)
  AttributesJSON : Option String
deriving DecidableEq, Repr

/-- A worker record as the runtime may deliver it. -/
structure WorkerDataJs where
  WorkerID : Option String
  WorkerName : Option String
  Skills : Option (List String)
  AvailableSlots : Option (List Int)
  MaxLoadPerPhase : Option Int
deriving DecidableEq, Repr

/-- A task record as the runtime may deliver it. -/
structure TaskDataJs where
  TaskID : Option String
  TaskName : Option String
  Duration : Option Int
  RequiredSkills : Option (List String)
  PreferredPhases : Option (List Int)
  MaxConcurrent : Option Int
deriving DecidableEq, Repr

/-- A finding in the runtime model (`entityId` may be `undefined` when the
source assigns an absent field to it). -/
structure ValidationErrorJs where
  id : String
  type : String
  entity : String
  entityId : Option String
  field : Option String
  message : String
  suggestion : Option String
deriving DecidableEq, Repr

/-- `x || d` on a possibly-absent string. -/
def jsStrOr (o : Option String) (d : String) : String :=
  match o with
  | none => d
  | some s => if s = "" then d else s

/-- Truthiness failure of a possibly-absent string. -/
def jsFalsyStr (o : Option String) : Bool :=
  match o with
  | none => true
  | some s => s = ""

/-- Truthiness failure of a possibly-absent number (0 is falsy). -/
def jsFalsyInt (o : Option Int) : Bool :=
  match o with
  | none => true
  | some n => n = 0

/-- `!x || (Array.isArray(x) && x.length === 0)` for a list field. -/
def jsMissingList {α : Type} (o : Option (List α)) : Bool :=
  match o with
  | none => true
  | some l => l.isEmpty

/-- Template-literal rendering of a possibly-absent string
(`undefined` prints as "undefined"). -/
def jsStr (o : Option String) : String :=
  match o with
  | none => "undefined"
  | some s => s

/-- Template-literal rendering of a possibly-absent number. -/
def jsNumStr (o : Option Int) : String :=
  match o with
  | none => "undefined"
  | some n => toString n

/-- `x < k` where `x` may be absent (`undefined < k` is false). -/
def jsLtK (o : Option Int) (k : Int) : Bool :=
  match o with
  | none => false
  | some n => n < k

/-- `x > k` where `x` may be absent. -/
def jsGtK (o : Option Int) (k : Int) : Bool :=
  match o with
  | none => false
  | some n => n > k

/-- `n < x` where `x` may be absent. -/
def jsKLt (n : Int) (o : Option Int) : Bool :=
  match o with
  | none => false
  | some m => n < m

/-- `n + x` where `x` may be absent: `undefined` poisons the sum to NaN
(modelled `none`). -/
def jsAdd (n : Int) (o : Option Int) : Option Int :=
  o.map (fun m => n + m)

/-- `(map.get(k) || 0)`: an absent entry and a stored NaN (both falsy)
default to 0. -/
def jsOrZero (g : Option (Option Int)) : Int :=
  match g with
  | some (some n) => n
  | _ => 0

/-- Concatenating the finding lists of a sequence of fallible record
checks, aborting at the first thrown `TypeError`. -/
def exceptFlatMap {α β : Type} (f : α → Except RunAbort (List β)) :
    List α → Except RunAbort (List β)
  | [] => .ok []
  | a :: rest =>
      match f a with
      | .error e => .error e
      | .ok l =>
          match exceptFlatMap f rest with
          | .error e => .error e
          | .ok ls => .ok (l ++ ls)

/-- Threading a fallible accumulator over a list. -/
def exceptFoldl {α σ : Type} (f : σ → α → Except RunAbort σ) :
    σ → List α → Except RunAbort σ
  | s, [] => .ok s
  | s, a :: rest =>
      match f s a with
      | .error e => .error e
      | .ok s' => exceptFoldl f s' rest

/-- The missing-field finding for a runtime client record. -/
def missingClientFindingJs (c : ClientDataJs) (f : String) : ValidationErrorJs :=
  { id := "client-" ++ jsStrOr c.ClientID "unknown" ++ "-missing-" ++ f
    type := "error", entity := "clients", entityId := some (jsStrOr c.ClientID "Unknown")
    field := some f
    message := "Required field \"" ++ f ++ "\" is missing"
    suggestion := some ("Add a value for " ++ f) }

/-- The missing-field finding for a runtime worker record. -/
def missingWorkerFindingJs (w : WorkerDataJs) (f : String) : ValidationErrorJs :=
  { id := "worker-" ++ jsStrOr w.WorkerID "unknown" ++ "-missing-" ++ f
    type := "error", entity := "workers", entityId := some (jsStrOr w.WorkerID "Unknown")
    field := some f
    message := "Required field \"" ++ f ++ "\" is missing or empty"
    suggestion := some ("Add a value for " ++ f) }

/-- The missing-field finding for a runtime task record. -/
def missingTaskFindingJs (t : TaskDataJs) (f : String) : ValidationErrorJs :=
  { id := "task-" ++ jsStrOr t.TaskID "unknown" ++ "-missing-" ++ f
    type := "error", entity := "tasks", entityId := some (jsStrOr t.TaskID "Unknown")
    field := some f
    message := "Required field \"" ++ f ++ "\" is missing or empty"
    suggestion := some ("Add a value for " ++ f) }

/-- Check 1 on runtime records (never throws: only falsy tests). -/
def validateRequiredFieldsJs (cs : List ClientDataJs) (ws : List WorkerDataJs)
    (ts : List TaskDataJs) : List ValidationErrorJs :=
  (cs.map (fun c =>
    (if jsFalsyStr c.ClientID then [missingClientFindingJs c "ClientID"] else []) ++
    (if jsFalsyStr c.ClientName then [missingClientFindingJs c "ClientName"] else []) ++
    (if jsFalsyInt c.PriorityLevel then [missingClientFindingJs c "PriorityLevel"] else []))).flatten ++
  (ws.map (fun w =>
    (if jsFalsyStr w.WorkerID then [missingWorkerFindingJs w "WorkerID"] else []) ++
    (if jsFalsyStr w.WorkerName then [missingWorkerFindingJs w "WorkerName"] else []) ++
    (if jsMissingList w.Skills then [missingWorkerFindingJs w "Skills"] else []) ++
    (if jsMissingList w.AvailableSlots then [missingWorkerFindingJs w "AvailableSlots"] else []) ++
    (if jsFalsyInt w.MaxLoadPerPhase then [missingWorkerFindingJs w "MaxLoadPerPhase"] else []))).flatten ++
  (ts.map (fun t =>
    (if jsFalsyStr t.TaskID then [missingTaskFindingJs t "TaskID"] else []) ++
    (if jsFalsyStr t.TaskName then [missingTaskFindingJs t "TaskName"] else []) ++
    (if jsFalsyInt t.Duration then [missingTaskFindingJs t "Duration"] else []) ++
    (if jsMissingList t.RequiredSkills then [missingTaskFindingJs t "RequiredSkills"] else []))).flatten

/-- Check 2 on runtime records: truthy IDs survive `filter(id => id)`. -/
def validateDuplicateIdsJs (cs : List ClientDataJs) (ws : List WorkerDataJs)
    (ts : List TaskDataJs) : List ValidationErrorJs :=
  (jsSetDedup (jsNonFirstOccurrences
      (((cs.map (fun c => c.ClientID)).filterMap id).filter (fun i => i ≠ "")))).map
    (fun k => { id := "duplicate-client-" ++ k, type := "error", entity := "clients"
                entityId := some k, field := none
                message := "Duplicate Client ID: " ++ k
                suggestion := some "Ensure all Client IDs are unique" }) ++
  (jsSetDedup (jsNonFirstOccurrences
      (((ws.map (fun w => w.WorkerID)).filterMap id).filter (fun i => i ≠ "")))).map
    (fun k => { id := "duplicate-worker-" ++ k, type := "error", entity := "workers"
                entityId := some k, field := none
                message := "Duplicate Worker ID: " ++ k
                suggestion := some "Ensure all Worker IDs are unique" }) ++
  (jsSetDedup (jsNonFirstOccurrences
      (((ts.map (fun t => t.TaskID)).filterMap id).filter (fun i => i ≠ "")))).map
    (fun k => { id := "duplicate-task-" ++ k, type := "error", entity := "tasks"
                entityId := some k, field := none
                message := "Duplicate Task ID: " ++ k
                suggestion := some "Ensure all Task IDs are unique" })

/-- The per-worker body of check 3: `worker.AvailableSlots.some(...)`
throws a `TypeError` when the list is absent. -/
def malformedSlotsBodyJs (w : WorkerDataJs) : Except RunAbort (List ValidationErrorJs) :=
  match w.AvailableSlots with
  | none => .error RunAbort.typeError
  | some slots =>
      .ok (if slots.any jsNonNumber then
        [{ id := "worker-" ++ jsStr w.WorkerID ++ "-malformed-slots", type := "error"
           entity := "workers", entityId := w.WorkerID, field := some "AvailableSlots"
           message := "Available slots must contain only numeric values"
           suggestion := some "Ensure all slot values are valid numbers" }] else [])

/-- The per-task body of check 3. -/
def malformedPhasesBodyJs (t : TaskDataJs) : Except RunAbort (List ValidationErrorJs) :=
  match t.PreferredPhases with
  | none => .error RunAbort.typeError
  | some phases =>
      .ok (if phases.any jsNonNumber then
        [{ id := "task-" ++ jsStr t.TaskID ++ "-malformed-phases", type := "error"
           entity := "tasks", entityId := t.TaskID, field := some "PreferredPhases"
           message := "Preferred phases must contain only numeric values"
           suggestion := some "Ensure all phase values are valid numbers" }] else [])

/-- Check 3 on runtime records. -/
def validateMalformedListsJs (ws : List WorkerDataJs) (ts : List TaskDataJs) :
    Except RunAbort (List ValidationErrorJs) :=
  match exceptFlatMap malformedSlotsBodyJs ws with
  | .error e => .error e
  | .ok es1 =>
      match exceptFlatMap malformedPhasesBodyJs ts with
      | .error e => .error e
      | .ok es2 => .ok (es1 ++ es2)

/-- The per-worker body of check 4: the load comparison tolerates an
absent field, but `worker.AvailableSlots.some(...)` throws when the slot
list is absent. -/
def rangeWorkerBodyJs (w : WorkerDataJs) : Except RunAbort (List ValidationErrorJs) :=
  let loadErr :=
    if jsLtK w.MaxLoadPerPhase 1 then
      [{ id := "worker-" ++ jsStr w.WorkerID ++ "-invalid-load", type := "error"
         entity := "workers", entityId := w.WorkerID, field := some "MaxLoadPerPhase"
         message := "Max load per phase must be at least 1"
         suggestion := some "Set a positive number for maximum workload capacity" }]
    else []
  match w.AvailableSlots with
  | none => .error RunAbort.typeError
  | some slots =>
      .ok (loadErr ++
        (if slots.any (fun s => s < 1) then
          [{ id := "worker-" ++ jsStr w.WorkerID ++ "-invalid-slots", type := "error"
             entity := "workers", entityId := w.WorkerID, field := some "AvailableSlots"
             message := "Available slots must be positive numbers"
             suggestion := some "Ensure all phase numbers are 1 or greater" }] else []))

/-- Check 4 on runtime records: the numeric comparisons against absent
fields are simply false. -/
def validateRangeValuesJs (cs : List ClientDataJs) (ws : List WorkerDataJs)
    (ts : List TaskDataJs) : Except RunAbort (List ValidationErrorJs) :=
  let clientErrs := (cs.map (fun c =>
    if jsLtK c.PriorityLevel 1 ∨ jsGtK c.PriorityLevel 5 then
      [{ id := "client-" ++ jsStr c.ClientID ++ "-invalid-priority", type := "error"
         entity := "clients", entityId := c.ClientID, field := some "PriorityLevel"
         message := "Priority level must be between 1-5, got " ++ jsNumStr c.PriorityLevel
         suggestion := some "Set priority level to a value between 1 (lowest) and 5 (highest)" }]
    else [])).flatten
  let taskErrs := (ts.map (fun t =>
    (if jsLtK t.Duration 1 then
      [{ id := "task-" ++ jsStr t.TaskID ++ "-invalid-duration", type := "error"
         entity := "tasks", entityId := t.TaskID, field := some "Duration"
         message := "Duration must be at least 1, got " ++ jsNumStr t.Duration
         suggestion := some "Set duration to a positive number of phases" }] else []) ++
    (if jsLtK t.MaxConcurrent 1 then
      [{ id := "task-" ++ jsStr t.TaskID ++ "-invalid-concurrent", type := "error"
         entity := "tasks", entityId := t.TaskID, field := some "MaxConcurrent"
         message := "Max concurrent must be at least 1"
         suggestion := some "Set a positive number for maximum parallel assignments" }] else []))).flatten
  match exceptFlatMap rangeWorkerBodyJs ws with
  | .error e => .error e
  | .ok workerErrs => .ok (clientErrs ++ taskErrs ++ workerErrs)

/-- Check 5 on runtime records (never throws: guarded by a try/catch and a
truthiness test). -/
def validateJSONFieldsJs (parseOk : String → Bool) (cs : List ClientDataJs) :
    List ValidationErrorJs :=
  (cs.map (fun c =>
    match c.AttributesJSON with
    | some s =>
        if s ≠ "" ∧ parseOk s = false then
          [{ id := "client-" ++ jsStr c.ClientID ++ "-broken-json", type := "error"
             entity := "clients", entityId := c.ClientID, field := some "AttributesJSON"
             message := "Invalid JSON format in AttributesJSON field"
             suggestion := some "Fix the JSON syntax or use the object format" }]
        else []
    | none => [])).flatten

/-- The per-client body of check 6:
`for (const taskId of client.RequestedTaskIDs)` throws when the request
list is absent. -/
def referencesBodyJs (ts : List TaskDataJs) (c : ClientDataJs) :
    Except RunAbort (List ValidationErrorJs) :=
  match c.RequestedTaskIDs with
  | none => .error RunAbort.typeError
  | some tids =>
      .ok ((tids.filter (fun tid => decide (some tid ∉ ts.map (fun t => t.TaskID)))).map
        (fun tid =>
          { id := "client-" ++ jsStr c.ClientID ++ "-unknown-task-" ++ tid
            type := "error", entity := "clients", entityId := c.ClientID
            field := some "RequestedTaskIDs"
            message := "Requested task \"" ++ tid ++ "\" does not exist"
            suggestion := some "Remove this task ID or add the corresponding task to the tasks data" }))

/-- Check 6 on runtime records. -/
def validateReferencesJs (cs : List ClientDataJs) (ts : List TaskDataJs) :
    Except RunAbort (List ValidationErrorJs) :=
  exceptFlatMap (referencesBodyJs ts) cs

/-- Lifting an engine finding (total model) into the runtime finding type:
check 7 reads only the rule set, which both models share. -/
def toJsError (e : ValidationError) : ValidationErrorJs :=
  { id := e.id, type := e.type, entity := e.entity, entityId := some e.entityId
    field := e.field, message := e.message, suggestion := e.suggestion }

/-- Check 7 on the runtime: the same fuelled cycle scan as the total model
(`fuelOut` never occurs, by claim C8's lemmas). -/
def validateCircularCoRunsJs (rules : List BusinessRule) :
    Except RunAbort (List ValidationErrorJs) :=
  match validateCircularCoRuns rules with
  | none => .error RunAbort.fuelOut
  | some l => .ok (l.map toJsError)

/-- `reduce` of the phase arrays in check 8: the accumulator or current
array being `undefined` throws as soon as `.filter`/`.includes` touches it,
except that `[].filter(cb)` never invokes its callback. -/
def jsIntersectGo : Option (List Int) → List (Option (List Int)) → Except RunAbort (List Int)
  | acc, [] =>
      match acc with
      | some l => .ok l
      | none => .error RunAbort.typeError
  | acc, p :: ps =>
      match acc with
      | none => .error RunAbort.typeError
      | some accL =>
          match p with
          | some pl => jsIntersectGo (some (accL.filter (fun x => x ∈ pl))) ps
          | none => if accL.isEmpty then jsIntersectGo (some []) ps
                    else .error RunAbort.typeError

/-- `arrays.reduce(...)` without an initial value. -/
def jsIntersectAllJs (arrs : List (Option (List Int))) : Except RunAbort (List Int) :=
  match arrs with
  | [] => .error RunAbort.typeError
  | a :: rest => jsIntersectGo a rest

/-- The window map of check 8 on runtime tasks: a found task's
`PreferredPhases` is stored even when absent. -/
def windowStepJs (pwRules : List BusinessRule) (ts : List TaskDataJs)
    (m : List (String × Option (List Int))) (taskId : String) :
    List (String × Option (List Int)) :=
  let m1 := match ts.find? (fun t => t.TaskID = some taskId) with
    | some task => jsMapSet m taskId task.PreferredPhases
    | none => m
  match pwRules.find? (fun r => r.parameters.taskId = some taskId) with
  | some phaseRule => jsMapSet m1 taskId (some (phaseRule.parameters.allowedPhases.getD []))
  | none => m1

/-- Check 8 on the runtime. -/
def validateRuleConflictsJs (businessRules : List BusinessRule) (ts : List TaskDataJs) :
    Except RunAbort (List ValidationErrorJs) :=
  let pwRules := businessRules.filter (fun r => r.type = "phaseWindow")
  let coRunRules := businessRules.filter (fun r => r.type = "coRun")
  exceptFlatMap (fun rule =>
    let phaseArrays := ((coRunTasksOf rule).foldl (windowStepJs pwRules ts) []).map
      (fun kv => kv.2)
    if 1 < phaseArrays.length then
      match jsIntersectAllJs phaseArrays with
      | .error e => .error e
      | .ok common =>
          .ok (if common.isEmpty then
            [{ id := "conflicting-phases-" ++ rule.id, type := "error", entity := "tasks"
               entityId := some (String.intercalate ", " (coRunTasksOf rule)), field := none
               message := "Co-run tasks have no overlapping phase windows: " ++
                 String.intercalate ", " (coRunTasksOf rule)
               suggestion := some "Adjust phase windows to allow co-run tasks to execute in the same phases" }]
          else [])
    else .ok []) coRunRules

/-- The per-worker body of check 9: `.length` on an absent slot list
throws. -/
def overloadBodyJs (w : WorkerDataJs) : Except RunAbort (List ValidationErrorJs) :=
  match w.AvailableSlots with
  | none => .error RunAbort.typeError
  | some slots =>
      .ok (if jsKLt (slots.length : Int) w.MaxLoadPerPhase then
        [{ id := "worker-" ++ jsStr w.WorkerID ++ "-overloaded", type := "warning"
           entity := "workers", entityId := w.WorkerID, field := none
           message := "Worker has fewer available slots (" ++ toString slots.length ++
             ") than max load capacity (" ++ jsNumStr w.MaxLoadPerPhase ++ ")"
           suggestion := some "Consider increasing available slots or reducing max load per phase" }]
      else [])

/-- Check 9 on the runtime. -/
def validateWorkerOverloadJs (ws : List WorkerDataJs) :
    Except RunAbort (List ValidationErrorJs) :=
  exceptFlatMap overloadBodyJs ws

/-- The per-worker accumulation of check 10's capacity map: an absent
`MaxLoadPerPhase` poisons the stored total to NaN; a stored NaN is falsy,
so `|| 0` resets it. -/
def phaseSlotsStepJs (m : List (Int × Option Int)) (w : WorkerDataJs) :
    Except RunAbort (List (Int × Option Int)) :=
  match w.AvailableSlots with
  | none => .error RunAbort.typeError
  | some slots =>
      .ok (slots.foldl (fun m' p =>
        jsMapSet m' p (jsAdd (jsOrZero (jsMapGet m' p)) w.MaxLoadPerPhase)) m)

/-- Check 10's capacity map on the runtime. -/
def phaseSlotsJs (ws : List WorkerDataJs) :
    Except RunAbort (List (Int × Option Int)) :=
  exceptFoldl phaseSlotsStepJs [] ws

/-- The per-task accumulation of check 10's requirement map:
`task.PreferredPhases.length` throws when the phase list is absent. -/
def phaseRequirementsStepJs (m : List (Int × Option Int)) (t : TaskDataJs) :
    Except RunAbort (List (Int × Option Int)) :=
  match t.PreferredPhases with
  | none => .error RunAbort.typeError
  | some phases =>
      .ok ((if 0 < phases.length then phases else [1]).foldl (fun m' p =>
        jsMapSet m' p (jsAdd (jsOrZero (jsMapGet m' p)) t.Duration)) m)

/-- Check 10's requirement map on the runtime. -/
def phaseRequirementsJs (ts : List TaskDataJs) :
    Except RunAbort (List (Int × Option Int)) :=
  exceptFoldl phaseRequirementsStepJs [] ts

/-- Check 10 on the runtime: a NaN requirement never compares greater, so
such a phase produces no warning. -/
def validatePhaseSlotSaturationJs (ws : List WorkerDataJs) (ts : List TaskDataJs) :
    Except RunAbort (List ValidationErrorJs) :=
  match phaseSlotsJs ws with
  | .error e => .error e
  | .ok slots =>
      match phaseRequirementsJs ts with
      | .error e => .error e
      | .ok reqs =>
          .ok (reqs.filterMap (fun pr =>
            let available := jsOrZero (jsMapGet slots pr.1)
            match pr.2 with
            | some required =>
                if required > available then
                  some { id := "phase-saturation-" ++ toString pr.1, type := "warning"
                         entity := "tasks", entityId := some ("Phase " ++ toString pr.1)
                         field := none
                         message := "Phase " ++ toString pr.1 ++ " is oversaturated: requires " ++
                           toString required ++ " slots but only " ++ toString available ++ " available"
                         suggestion := some "Add more workers to this phase or redistribute tasks to other phases" }
                else none
            | none => none))

/-- The per-worker accumulation of check 11's skill pool: iterating an
absent skill list throws. -/
def skillPoolStepJs (acc : List String) (w : WorkerDataJs) :
    Except RunAbort (List String) :=
  match w.Skills with
  | none => .error RunAbort.typeError
  | some sk => .ok (acc ++ sk)

/-- The per-task body of check 11: iterating an absent requirement list
throws. -/
def skillCoverageBodyJs (availableSkills : List String) (t : TaskDataJs) :
    Except RunAbort (List ValidationErrorJs) :=
  match t.RequiredSkills with
  | none => .error RunAbort.typeError
  | some rs =>
      .ok ((rs.filter (fun s => decide (s ∉ availableSkills))).map (fun s =>
        { id := "task-" ++ jsStr t.TaskID ++ "-missing-skill-" ++ s, type := "warning"
          entity := "tasks", entityId := t.TaskID, field := some "RequiredSkills"
          message := "No worker has the required skill \"" ++ s ++ "\""
          suggestion := some "Add a worker with this skill or remove it from task requirements" }))

/-- Check 11 on the runtime. -/
def validateSkillCoverageJs (ws : List WorkerDataJs) (ts : List TaskDataJs) :
    Except RunAbort (List ValidationErrorJs) :=
  match exceptFoldl skillPoolStepJs ([] : List String) ws with
  | .error e => .error e
  | .ok availableSkills => exceptFlatMap (skillCoverageBodyJs availableSkills) ts

/-- `task.RequiredSkills.every(skill => worker.Skills.includes(skill))` on
the runtime: an absent `RequiredSkills` throws before anything else; an
absent `Skills` throws only when there is a skill to test. -/
def workerQualifiesJs (w : WorkerDataJs) : List String → Except RunAbort Bool
  | [] => .ok true
  | s :: rest =>
      match w.Skills with
      | none => .error RunAbort.typeError
      | some sk => if s ∈ sk then workerQualifiesJs w rest else .ok false

/-- `workersData.filter(worker => task.RequiredSkills.every(...))` on the
runtime: the callback (and hence any throw) runs once per worker. -/
def qualifiedWorkersJs (t : TaskDataJs) : List WorkerDataJs → Except RunAbort (List WorkerDataJs)
  | [] => .ok []
  | w :: rest =>
      match t.RequiredSkills with
      | none => .error RunAbort.typeError
      | some rs =>
          match workerQualifiesJs w rs with
          | .error e => .error e
          | .ok b =>
              match qualifiedWorkersJs t rest with
              | .error e => .error e
              | .ok ws' => .ok (if b then w :: ws' else ws')

/-- `worker.AvailableSlots.some(slot => task.PreferredPhases.includes(slot))`
on the runtime. -/
def workerHasSlotJs (phases : List Int) (w : WorkerDataJs) : Except RunAbort Bool :=
  match w.AvailableSlots with
  | none => .error RunAbort.typeError
  | some slots => .ok (slots.any (fun slot => decide (slot ∈ phases)))

/-- The phase-constrained filter of check 12 on the runtime. -/
def availableWorkersJs (phases : List Int) : List WorkerDataJs → Except RunAbort (List WorkerDataJs)
  | [] => .ok []
  | w :: rest =>
      match workerHasSlotJs phases w with
      | .error e => .error e
      | .ok b =>
          match availableWorkersJs phases rest with
          | .error e => .error e
          | .ok ws' => .ok (if b then w :: ws' else ws')

/-- The per-task body of check 12. -/
def maxConcurrencyBodyJs (ws : List WorkerDataJs) (t : TaskDataJs) :
    Except RunAbort (List ValidationErrorJs) :=
  match qualifiedWorkersJs t ws with
  | .error e => .error e
  | .ok qualified =>
      let first :=
        if jsGtK t.MaxConcurrent (qualified.length : Int) then
          [{ id := "task-" ++ jsStr t.TaskID ++ "-infeasible-concurrency", type := "warning"
             entity := "tasks", entityId := t.TaskID, field := some "MaxConcurrent"
             message := "Max concurrent (" ++ jsNumStr t.MaxConcurrent ++
               ") exceeds qualified workers (" ++ toString qualified.length ++ ")"
             suggestion := some "Reduce max concurrent value or add more qualified workers" }]
        else []
      match t.PreferredPhases with
      | none => .error RunAbort.typeError
      | some phases =>
          if 0 < phases.length then
            match availableWorkersJs phases qualified with
            | .error e => .error e
            | .ok avail =>
                .ok (first ++
                  (if jsGtK t.MaxConcurrent (avail.length : Int) then
                    [{ id := "task-" ++ jsStr t.TaskID ++ "-infeasible-phase-concurrency"
                       type := "warning", entity := "tasks", entityId := t.TaskID, field := none
                       message := "Max concurrent (" ++ jsNumStr t.MaxConcurrent ++
                         ") exceeds available qualified workers (" ++ toString avail.length ++
                         ") in preferred phases"
                       suggestion := some "Adjust preferred phases, reduce max concurrent, or add more qualified workers" }]
                  else []))
          else .ok first

/-- Check 12 on the runtime. -/
def validateMaxConcurrencyFeasibilityJs (ws : List WorkerDataJs) (ts : List TaskDataJs) :
    Except RunAbort (List ValidationErrorJs) :=
  exceptFlatMap (maxConcurrencyBodyJs ws) ts

/-- `runValidations` on runtime records: the checks run in source order and
the first thrown `TypeError` aborts the whole pass. -/
def runValidationsJs (parseOk : String → Bool) (cs : List ClientDataJs)
    (ws : List WorkerDataJs) (ts : List TaskDataJs) (rules : List BusinessRule) :
    Except RunAbort (List ValidationErrorJs) :=
  let e1 := validateRequiredFieldsJs cs ws ts
  let e2 := validateDuplicateIdsJs cs ws ts
  match validateMalformedListsJs ws ts with
  | .error e => .error e
  | .ok e3 =>
      match validateRangeValuesJs cs ws ts with
      | .error e => .error e
      | .ok e4 =>
          let e5 := validateJSONFieldsJs parseOk cs
          match validateReferencesJs cs ts with
          | .error e => .error e
          | .ok e6 =>
              match validateCircularCoRunsJs rules with
              | .error e => .error e
              | .ok e7 =>
                  match validateRuleConflictsJs rules ts with
                  | .error e => .error e
                  | .ok e8 =>
                      match validateWorkerOverloadJs ws with
                      | .error e => .error e
                      | .ok e9 =>
                          match validatePhaseSlotSaturationJs ws ts with
                          | .error e => .error e
                          | .ok e10 =>
                              match validateSkillCoverageJs ws ts with
                              | .error e => .error e
                              | .ok e11 =>
                                  match validateMaxConcurrencyFeasibilityJs ws ts with
                                  | .error e => .error e
                                  | .ok e12 =>
                                      .ok (e1 ++ e2 ++ e3 ++ e4 ++ e5 ++ e6 ++ e7 ++
                                        e8 ++ e9 ++ e10 ++ e11 ++ e12)

lemma exceptFlatMap_ok {α β : Type} (f : α → Except RunAbort (List β)) :
    ∀ l : List α, (∀ a ∈ l, ∃ r, f a = .ok r) → ∃ out, exceptFlatMap f l = .ok out := by
  intro l
  induction l with
  | nil => intro _; exact ⟨[], rfl⟩
  | cons a rest ih =>
    intro h
    obtain ⟨r, hr⟩ := h a (List.mem_cons_self a rest)
    obtain ⟨out, hout⟩ := ih (fun b hb => h b (List.mem_cons_of_mem a hb))
    exact ⟨r ++ out, by rw [exceptFlatMap, hr, hout]⟩

lemma exceptFoldl_ok {α σ : Type} (f : σ → α → Except RunAbort σ) :
    ∀ (l : List α) (s : σ), (∀ a ∈ l, ∀ s', ∃ s'', f s' a = .ok s'') →
      ∃ out, exceptFoldl f s l = .ok out := by
  intro l
  induction l with
  | nil => intro s _; exact ⟨s, rfl⟩
  | cons a rest ih =>
    intro s h
    obtain ⟨s', hs'⟩ := h a (List.mem_cons_self a rest) s
    obtain ⟨out, hout⟩ := ih s' (fun b hb => h b (List.mem_cons_of_mem a hb))
    refine ⟨out, ?_⟩
    rw [exceptFoldl, hs']
    exact hout

lemma mem_jsMapSet {κ α : Type} [DecidableEq κ] :
    ∀ (m : List (κ × α)) (k : κ) (v : α) (kv : κ × α),
      kv ∈ jsMapSet m k v → kv = (k, v) ∨ kv ∈ m := by
  intro m
  induction m with
  | nil => intro k v kv h; simpa [jsMapSet] using h
  | cons kv0 rest ih =>
    intro k v kv h
    by_cases h1 : kv0.1 = k
    · rw [show jsMapSet (kv0 :: rest) k v = (k, v) :: rest by simp [jsMapSet, h1]] at h
      rcases List.mem_cons.mp h with h | h
      · exact Or.inl h
      · exact Or.inr (List.mem_cons_of_mem kv0 h)
    · rw [show jsMapSet (kv0 :: rest) k v = kv0 :: jsMapSet rest k v by simp [jsMapSet, h1]] at h
      rcases List.mem_cons.mp h with h | h
      · exact Or.inr (h ▸ List.mem_cons_self kv0 rest)
      · rcases ih k v kv h with h' | h'
        · exact Or.inl h'
        · exact Or.inr (List.mem_cons_of_mem kv0 h')

lemma windowStepJs_values (pw : List BusinessRule) (ts : List TaskDataJs)
    (hts : ∀ t ∈ ts, t.PreferredPhases ≠ none) (m : List (String × Option (List Int)))
    (taskId : String) (hm : ∀ kv ∈ m, kv.2 ≠ none) :
    ∀ kv ∈ windowStepJs pw ts m taskId, kv.2 ≠ none := by
  intro kv hkv
  unfold windowStepJs at hkv
  have hm1 : ∀ kv ∈ (match ts.find? (fun t => t.TaskID = some taskId) with
      | some task => jsMapSet m taskId task.PreferredPhases
      | none => m), kv.2 ≠ none := by
    intro kv' hkv'
    cases hfind : ts.find? (fun t => t.TaskID = some taskId) with
    | some task =>
        rw [hfind] at hkv'
        rcases mem_jsMapSet _ _ _ _ hkv' with h | h
        · rw [h]
          exact hts task (List.mem_of_find?_eq_some hfind)
        · exact hm kv' h
    | none =>
        rw [hfind] at hkv'
        exact hm kv' hkv'
  cases hpw : pw.find? (fun r => r.parameters.taskId = some taskId) with
  | some phaseRule =>
      rw [hpw] at hkv
      rcases mem_jsMapSet _ _ _ _ hkv with h | h
      · rw [h]; simp
      · exact hm1 kv h
  | none =>
      rw [hpw] at hkv
      exact hm1 kv hkv

lemma foldl_windowStepJs_values (pw : List BusinessRule) (ts : List TaskDataJs)
    (hts : ∀ t ∈ ts, t.PreferredPhases ≠ none) :
    ∀ (tids : List String) (m : List (String × Option (List Int))),
      (∀ kv ∈ m, kv.2 ≠ none) →
      ∀ kv ∈ tids.foldl (windowStepJs pw ts) m, kv.2 ≠ none := by
  intro tids
  induction tids with
  | nil => intro m hm; exact hm
  | cons t rest ih =>
    intro m hm
    rw [List.foldl_cons]
    exact ih _ (windowStepJs_values pw ts hts m t hm)

lemma jsIntersectGo_ok :
    ∀ (rest : List (Option (List Int))) (acc : Option (List Int)),
      acc ≠ none → (∀ a ∈ rest, a ≠ none) →
      ∃ l, jsIntersectGo acc rest = .ok l := by
  intro rest
  induction rest with
  | nil =>
    intro acc hacc _
    cases acc with
    | none => exact absurd rfl hacc
    | some l => exact ⟨l, rfl⟩
  | cons p ps ih =>
    intro acc hacc hall
    cases acc with
    | none => exact absurd rfl hacc
    | some accL =>
      cases hp : p with
      | none => exact absurd hp (hall p (List.mem_cons_self p ps))
      | some pl =>
        obtain ⟨l, hl⟩ := ih (some (accL.filter (fun x => x ∈ pl))) (by simp)
          (fun a ha => hall a (List.mem_cons_of_mem p ha))
        exact ⟨l, by rw [jsIntersectGo, hl]⟩

lemma validateRuleConflictsJs_ok (rules : List BusinessRule) (ts : List TaskDataJs)
    (hts : ∀ t ∈ ts, t.PreferredPhases ≠ none) :
    ∃ l, validateRuleConflictsJs rules ts = .ok l := by
  unfold validateRuleConflictsJs
  refine exceptFlatMap_ok _ _ (fun rule _ => ?_)
  dsimp only
  set pw := rules.filter (fun r => r.type = "phaseWindow") with hpw
  set arrs := (((coRunTasksOf rule).foldl (windowStepJs pw ts) []).map (fun kv => kv.2)) with harrs
  by_cases hlen : 1 < arrs.length
  · rw [if_pos hlen]
    have hvals : ∀ a ∈ arrs, a ≠ none := by
      intro a ha
      rw [harrs] at ha
      obtain ⟨kv, hkv, rfl⟩ := List.mem_map.mp ha
      exact foldl_windowStepJs_values pw ts hts (coRunTasksOf rule) [] (by intro kv h; cases h)
        kv hkv
    have hne : arrs ≠ [] := by
      intro h
      rw [h] at hlen
      simp at hlen
    obtain ⟨a, rest, hcons⟩ := List.exists_cons_of_ne_nil hne
    have hred : jsIntersectAllJs arrs = jsIntersectGo a rest := by rw [hcons]; rfl
    obtain ⟨l, hl⟩ := jsIntersectGo_ok rest a
      (hvals a (hcons ▸ List.mem_cons_self a rest))
      (fun b hb => hvals b (hcons ▸ List.mem_cons_of_mem a hb))
    rw [hred, hl]
    exact ⟨_, rfl⟩
  · rw [if_neg hlen]
    exact ⟨[], rfl⟩

lemma workerQualifiesJs_ok (w : WorkerDataJs) (hw : w.Skills ≠ none) :
    ∀ rs : List String, ∃ b, workerQualifiesJs w rs = .ok b := by
  intro rs
  induction rs with
  | nil => exact ⟨true, rfl⟩
  | cons s rest ih =>
    cases hsk : w.Skills with
    | none => exact absurd hsk hw
    | some sk =>
      by_cases hmem : s ∈ sk
      · obtain ⟨b, hb⟩ := ih
        exact ⟨b, by rw [workerQualifiesJs, hsk]; simp [hmem, hb]⟩
      · exact ⟨false, by rw [workerQualifiesJs, hsk]; simp [hmem]⟩

lemma qualifiedWorkersJs_ok (t : TaskDataJs) (ht : t.RequiredSkills ≠ none) :
    ∀ ws : List WorkerDataJs, (∀ w ∈ ws, w.Skills ≠ none) →
      ∃ qs, qualifiedWorkersJs t ws = .ok qs ∧ ∀ w ∈ qs, w ∈ ws := by
  intro ws
  induction ws with
  | nil => intro _; exact ⟨[], rfl, by intro w h; cases h⟩
  | cons w rest ih =>
    intro hws
    cases hrs : t.RequiredSkills with
    | none => exact absurd hrs ht
    | some rs =>
      obtain ⟨b, hb⟩ := workerQualifiesJs_ok w (hws w (List.mem_cons_self w rest)) rs
      obtain ⟨qs, hqs, hsub⟩ := ih (fun w' h => hws w' (List.mem_cons_of_mem w h))
      refine ⟨if b then w :: qs else qs, by simp only [qualifiedWorkersJs, hrs, hb, hqs], ?_⟩
      intro w' hw'
      by_cases hbv : b
      · rw [if_pos hbv] at hw'
        rcases List.mem_cons.mp hw' with h | h
        · exact h ▸ List.mem_cons_self w rest
        · exact List.mem_cons_of_mem w (hsub w' h)
      · rw [if_neg hbv] at hw'
        exact List.mem_cons_of_mem w (hsub w' hw')

lemma availableWorkersJs_ok (phases : List Int) :
    ∀ l : List WorkerDataJs, (∀ w ∈ l, w.AvailableSlots ≠ none) →
      ∃ r, availableWorkersJs phases l = .ok r := by
  intro l
  induction l with
  | nil => intro _; exact ⟨[], rfl⟩
  | cons w rest ih =>
    intro hl
    cases hsl : w.AvailableSlots with
    | none => exact absurd hsl (hl w (List.mem_cons_self w rest))
    | some slots =>
      obtain ⟨r, hr⟩ := ih (fun w' h => hl w' (List.mem_cons_of_mem w h))
      refine ⟨if slots.any (fun slot => decide (slot ∈ phases)) then w :: r else r, ?_⟩
      simp only [availableWorkersJs, workerHasSlotJs, hsl, hr]

lemma validateMaxConcurrencyFeasibilityJs_ok (ws : List WorkerDataJs) (ts : List TaskDataJs)
    (hws : ∀ w ∈ ws, w.Skills ≠ none ∧ w.AvailableSlots ≠ none)
    (hts : ∀ t ∈ ts, t.RequiredSkills ≠ none ∧ t.PreferredPhases ≠ none) :
    ∃ l, validateMaxConcurrencyFeasibilityJs ws ts = .ok l := by
  unfold validateMaxConcurrencyFeasibilityJs
  refine exceptFlatMap_ok _ _ (fun t htmem => ?_)
  obtain ⟨qs, hqs, hsub⟩ := qualifiedWorkersJs_ok t (hts t htmem).1 ws (fun w hw => (hws w hw).1)
  unfold maxConcurrencyBodyJs
  rw [hqs]
  dsimp only
  cases hph : t.PreferredPhases with
  | none => exact absurd hph (hts t htmem).2
  | some phases =>
    dsimp only
    by_cases hlen : 0 < phases.length
    · rw [if_pos hlen]
      obtain ⟨r, hr⟩ := availableWorkersJs_ok phases qs
        (fun w hw => (hws w (hsub w hw)).2)
      rw [hr]
      exact ⟨_, rfl⟩
    · rw [if_neg hlen]
      exact ⟨_, rfl⟩

/-- If every record carries its list-typed fields, the whole runtime pass
returns a finding list. -/
def listFieldsPresent (cs : List ClientDataJs) (ws : List WorkerDataJs)
    (ts : List TaskDataJs) : Prop :=
  (∀ c ∈ cs, c.RequestedTaskIDs ≠ none) ∧
  (∀ w ∈ ws, w.Skills ≠ none ∧ w.AvailableSlots ≠ none) ∧
  (∀ t ∈ ts, t.RequiredSkills ≠ none ∧ t.PreferredPhases ≠ none)

/-- C2 as amended: with non-null collections whose records all carry their
list-typed fields (RequestedTaskIDs, Skills, AvailableSlots,
RequiredSkills, PreferredPhases), `runValidations` never throws and
returns a complete finding list. -/
theorem claim_c2 (parseOk : String → Bool) (cs : List ClientDataJs)
    (ws : List WorkerDataJs) (ts : List TaskDataJs) (rules : List BusinessRule)
    (h : listFieldsPresent cs ws ts) :
    ∃ l, runValidationsJs parseOk cs ws ts rules = .ok l := by
  obtain ⟨hcs, hws, hts⟩ := h
  have h3 : ∃ l, validateMalformedListsJs ws ts = .ok l := by
    unfold validateMalformedListsJs
    obtain ⟨l1, hl1⟩ := exceptFlatMap_ok malformedSlotsBodyJs ws (fun w hw => by
      unfold malformedSlotsBodyJs
      cases hsl : w.AvailableSlots with
      | none => exact absurd hsl (hws w hw).2
      | some slots => exact ⟨_, rfl⟩)
    obtain ⟨l2, hl2⟩ := exceptFlatMap_ok malformedPhasesBodyJs ts (fun t ht => by
      unfold malformedPhasesBodyJs
      cases hph : t.PreferredPhases with
      | none => exact absurd hph (hts t ht).2
      | some phases => exact ⟨_, rfl⟩)
    rw [hl1, hl2]
    exact ⟨_, rfl⟩
  have h4 : ∃ l, validateRangeValuesJs cs ws ts = .ok l := by
    unfold validateRangeValuesJs
    obtain ⟨l1, hl1⟩ := exceptFlatMap_ok rangeWorkerBodyJs ws (fun w hw => by
      unfold rangeWorkerBodyJs
      cases hsl : w.AvailableSlots with
      | none => exact absurd hsl (hws w hw).2
      | some slots => exact ⟨_, rfl⟩)
    rw [hl1]
    exact ⟨_, rfl⟩
  have h6 : ∃ l, validateReferencesJs cs ts = .ok l := by
    unfold validateReferencesJs
    refine exceptFlatMap_ok _ cs (fun c hc => ?_)
    unfold referencesBodyJs
    cases hrq : c.RequestedTaskIDs with
    | none => exact absurd hrq (hcs c hc)
    | some tids => exact ⟨_, rfl⟩
  have h7 : ∃ l, validateCircularCoRunsJs rules = .ok l := by
    unfold validateCircularCoRunsJs
    obtain ⟨circ, hcirc⟩ := Option.isSome_iff_exists.mp (validateCircularCoRuns_isSome rules)
    rw [hcirc]
    exact ⟨_, rfl⟩
  have h8 := validateRuleConflictsJs_ok rules ts (fun t ht => (hts t ht).2)
  have h9 : ∃ l, validateWorkerOverloadJs ws = .ok l := by
    unfold validateWorkerOverloadJs
    refine exceptFlatMap_ok _ ws (fun w hw => ?_)
    unfold overloadBodyJs
    cases hsl : w.AvailableSlots with
    | none => exact absurd hsl (hws w hw).2
    | some slots => exact ⟨_, rfl⟩
  have h10 : ∃ l, validatePhaseSlotSaturationJs ws ts = .ok l := by
    unfold validatePhaseSlotSaturationJs
    obtain ⟨m1, hm1⟩ : ∃ m, phaseSlotsJs ws = .ok m := by
      unfold phaseSlotsJs
      refine exceptFoldl_ok _ ws [] (fun w hw s' => ?_)
      unfold phaseSlotsStepJs
      cases hsl : w.AvailableSlots with
      | none => exact absurd hsl (hws w hw).2
      | some slots => exact ⟨_, rfl⟩
    obtain ⟨m2, hm2⟩ : ∃ m, phaseRequirementsJs ts = .ok m := by
      unfold phaseRequirementsJs
      refine exceptFoldl_ok _ ts [] (fun t ht s' => ?_)
      unfold phaseRequirementsStepJs
      cases hph : t.PreferredPhases with
      | none => exact absurd hph (hts t ht).2
      | some phases => exact ⟨_, rfl⟩
    rw [hm1, hm2]
    exact ⟨_, rfl⟩
  have h11 : ∃ l, validateSkillCoverageJs ws ts = .ok l := by
    unfold validateSkillCoverageJs
    obtain ⟨sk, hsk⟩ : ∃ r, exceptFoldl skillPoolStepJs ([] : List String) ws = .ok r := by
      refine exceptFoldl_ok _ ws [] (fun w hw s' => ?_)
      unfold skillPoolStepJs
      cases hs : w.Skills with
      | none => exact absurd hs (hws w hw).1
      | some sk => exact ⟨_, rfl⟩
    rw [hsk]
    refine exceptFlatMap_ok _ ts (fun t ht => ?_)
    unfold skillCoverageBodyJs
    cases hrs : t.RequiredSkills with
    | none => exact absurd hrs (hts t ht).1
    | some rs => exact ⟨_, rfl⟩
  have h12 := validateMaxConcurrencyFeasibilityJs_ok ws ts hws hts
  obtain ⟨l3, hl3⟩ := h3
  obtain ⟨l4, hl4⟩ := h4
  obtain ⟨l6, hl6⟩ := h6
  obtain ⟨l7, hl7⟩ := h7
  obtain ⟨l8, hl8⟩ := h8
  obtain ⟨l9, hl9⟩ := h9
  obtain ⟨l10, hl10⟩ := h10
  obtain ⟨l11, hl11⟩ := h11
  obtain ⟨l12, hl12⟩ := h12
  unfold runValidationsJs
  rw [hl3, hl4, hl6, hl7, hl8, hl9, hl10, hl11, hl12]
  exact ⟨_, rfl⟩

/-- A worker whose `AvailableSlots` field is absent (all other fields
present). -/
def noSlotsWorker : WorkerDataJs :=
  { WorkerID := some "W1", WorkerName := some "w", Skills := some ["s"]
    AvailableSlots := none, MaxLoadPerPhase := some 1 }

/-- C2 counterexample: a single worker record missing only its
`AvailableSlots` list makes `runValidations` throw a `TypeError` (raised in
`validateMalformedLists` by `worker.AvailableSlots.some(...)`), instead of
skipping the record and returning a finding list as the claim states. -/
theorem claim_c2_cex :
    noSlotsWorker.AvailableSlots = none ∧
    runValidationsJs (fun _ => true) [] [noSlotsWorker] [] [] =
      .error RunAbort.typeError :=
  ⟨rfl, rfl⟩

/-- A worker record with every field present. -/
def fullWorker : WorkerDataJs :=
  { WorkerID := some "W1", WorkerName := some "w", Skills := some ["s"]
    AvailableSlots := some [1], MaxLoadPerPhase := some 1 }

/-- C2 witness: on a concrete input whose records carry their list fields,
the runtime pass returns a finding list. -/
theorem claim_c2_witness :
    listFieldsPresent [] [fullWorker] [] ∧
    ∃ l, runValidationsJs (fun _ => true) [] [fullWorker] [] [] = .ok l :=
  ⟨by constructor <;> simp [fullWorker], claim_c2 (fun _ => true) [] [fullWorker] [] []
    (by constructor <;> simp [fullWorker])⟩
